import Mathlib

/-!
Shallow embedding of the virtual file system implemented in
src/filesystem.h and src/filesystem.cpp, together with proofs about the
claims of the specification.

Modelling conventions (stated once, referenced from the definitions):

* A disk block is a byte map (Nat → Nat); bytes written through the
  helpers are always < 256.  Directory blocks are scanned at the byte
  level exactly as the C++ code does (stride = the rec_len field of each
  entry, 264 = sizeof(DirEntry) for entries created through the normal
  paths, 12 for the dot entries that create_file writes into a fresh
  subdirectory block).
* The inode table is kept as a separate map (FS.inodes) instead of being
  serialized into blocks 2..2+K-1.  This is faithful as long as no data
  write targets an inode-table block; the theorems that quantify over
  states carry hypotheses (the section 3 invariants) that pin the
  metadata blocks as allocated, so data-block writes can never alias the
  table.
* size_t is modelled as Nat; every place where the C++ code converts a
  size_t into a uint32_t (or adds into a uint32_t field) takes the value
  mod 2^32, mirroring the well-defined unsigned conversion.
* The C++ code has a few undefined-behaviour spots that we determinize
  in the way an ordinary zero-initialized stack makes them behave:
  - create_file writes a 4096-byte block from a 528-byte DirEntry[2]
    whose name tails are uninitialized; we model the unwritten bytes of
    that block as zero;
  - writing a DirEntry struct at a block offset within 264 bytes of the
    end of the block overflows the stack buffer; only the bytes below
    offset 4096 are persisted by write_block, which is exactly what our
    byte-map write models (bytes at offsets >= 4096 are stored in the
    map but never read back, matching the fact that the C++ never
    persists them);
  - append_to_file can compute an indirect slot index >= 1024 (there is
    no capacity check); the slot write lands beyond the 4096 persisted
    bytes of the indirect block, so the pointer is lost, which the byte
    map reproduces because all reads are below offset 4096.
-/

namespace VFS

/-- Size of a disk block in bytes (BLOCK_SIZE in filesystem.h). -/
def blockSize : Nat := 4096

/-- Number of direct block pointers in an inode (DIRECT_BLOCKS). -/
def directBlocks : Nat := 12

/-- Size in bytes of the on-disk DirEntry struct: 4 (inode) + 2 (rec_len)
+ 1 (name_len) + 1 (file_type) + 256 (name). -/
def dirEntrySize : Nat := 264

/-- Maximal number of data blocks a regular file can reference:
12 direct pointers plus 1024 pointers in the single indirect block. -/
def maxFileBlocks : Nat := directBlocks + blockSize / 4

/-- A disk block: a map from byte offset to byte value. -/
def Block : Type := Nat → Nat

/-- The all-zero block (what formatting produces). -/
def zeroBlock : Block := fun _ => 0

/-- In-core inode, mirroring struct Inode of filesystem.h.  The 68
reserved bytes are always zero and are not modelled.  blocks is a list of
13 pointers (12 direct + 1 single indirect). -/
structure Inode where
  mode : Nat
  size : Nat
  links_count : Nat
  blocks : List Nat
deriving DecidableEq, Repr

/-- The zero inode (what the Inode() constructor produces, and what
free_inode writes back). -/
def zeroInode : Inode := ⟨0, 0, 0, List.replicate 13 0⟩

/-- Read direct/indirect pointer i of an inode (inode.blocks[i]). -/
def Inode.blk (ino : Inode) (i : Nat) : Nat := ino.blocks.getD i 0

/-- Write pointer i of an inode (inode.blocks[i] = v). -/
def Inode.setBlk (ino : Inode) (i v : Nat) : Inode :=
  { ino with blocks := ino.blocks.set i v }

/-- Superblock accounting fields (struct Superblock).  magic, block_size,
first_data_block, first_inode_block and bitmap_block are compile-time
constants of the format (0x4D534653, 4096, 2+K, 2, 1) and are not carried
in the state. -/
structure Superblock where
  blocks_count : Nat
  free_blocks_count : Nat
  inodes_count : Nat
  free_inodes_count : Nat
deriving DecidableEq, Repr

/-- The mounted file-system state: superblock counters, the in-core
block bitmap (mirrored to block 1 on every change), the inode table
(blocks 2..2+K-1 on disk) and the data blocks. -/
structure FS where
  sb : Superblock
  bitmap : Nat → Bool
  inodes : Nat → Inode
  data : Nat → Block

/-- Pointwise update of a Nat-indexed map. -/
def updFun {α : Type} (f : Nat → α) (k : Nat) (v : α) : Nat → α :=
  fun i => if i = k then v else f i

/-! ## Byte-level helpers for directory blocks -/

/-- Little-endian bytes of a 32-bit value (values are stored mod 2^32,
matching the uint32_t fields). -/
def le32 (v : Nat) : List Nat :=
  [v % 256, v / 256 % 256, v / 256 ^ 2 % 256, v / 256 ^ 3 % 256]

/-- Little-endian bytes of a 16-bit value. -/
def le16 (v : Nat) : List Nat := [v % 256, v / 256 % 256]

/-- Read a byte of a block. -/
def read8 (b : Block) (o : Nat) : Nat := b o

/-- Read a little-endian 16-bit value at byte offset o. -/
def read16 (b : Block) (o : Nat) : Nat := b o + 256 * b (o + 1)

/-- Read a little-endian 32-bit value at byte offset o. -/
def read32 (b : Block) (o : Nat) : Nat :=
  b o + 256 * b (o + 1) + 256 ^ 2 * b (o + 2) + 256 ^ 3 * b (o + 3)

/-- Overwrite bytes o .. o + bytes.length - 1 of a block. -/
def writeBytes (b : Block) (o : Nat) (bytes : List Nat) : Block :=
  fun i => if o ≤ i ∧ i < o + bytes.length then bytes.getD (i - o) 0 else b i

/-- Bytes of a C string up to (excluding) its first NUL. -/
def cstrBytes (s : List Nat) : List Nat := s.takeWhile (· ≠ 0)

/-- strncpy(dst, s, n): copies the bytes of s up to its first NUL and
zero-pads the remainder of the n destination bytes. -/
def strncpyBytes (s : List Nat) (n : Nat) : List Nat :=
  ((cstrBytes s).take n) ++ List.replicate (n - ((cstrBytes s).take n).length) 0

/-- The 264 bytes of a DirEntry as written by the entry-creation sites of
filesystem.cpp: inode, rec_len, name_len (a uint8_t, hence mod 256),
file_type, then strncpy(name, s, 255) and name[255] = 0. -/
def dirEntryBytes (ino rl nl ft : Nat) (name : List Nat) : List Nat :=
  le32 ino ++ le16 rl ++ [nl % 256, ft % 256] ++ strncpyBytes name 255 ++ [0]

/-- inode field of the directory entry at byte offset o. -/
def entInode (b : Block) (o : Nat) : Nat := read32 b o

/-- rec_len field of the directory entry at byte offset o. -/
def entRecLen (b : Block) (o : Nat) : Nat := read16 b (o + 4)

/-- name_len field of the directory entry at byte offset o. -/
def entNameLen (b : Block) (o : Nat) : Nat := read8 b (o + 6)

/-- file_type field of the directory entry at byte offset o. -/
def entFileType (b : Block) (o : Nat) : Nat := read8 b (o + 7)

/-- name_len bytes of the name of the entry at offset o, as a list. -/
def entName (b : Block) (o : Nat) : List Nat :=
  (List.range (entNameLen b o)).map fun k => b (o + 8 + k)

/-- strncmp(a, b, n) == 0 where a are the bytes of a block starting at
offset o and b is the C string of s: compares up to n bytes, stopping
early (with equality) at a common NUL. -/
def strncmpEqGo (b : Block) (o : Nat) (cs : List Nat) : Nat → Bool
  | 0 => true
  | n + 1 =>
    match cs with
    | [] => false
    | c :: rest => if b o = c then (if c = 0 then true else strncmpEqGo b (o + 1) rest n)
                   else false

/-- strncmp(block bytes at o, s as C string, n) == 0. -/
def strncmpEqB (b : Block) (o : Nat) (s : List Nat) (n : Nat) : Bool :=
  strncmpEqGo b o (s ++ [0]) n

/-- The name-match test used by every directory scan of filesystem.cpp:
strncmp(entry->name, comp.c_str(), entry->name_len) == 0 and
comp.length() == entry->name_len. -/
def entMatches (b : Block) (o : Nat) (comp : List Nat) : Bool :=
  strncmpEqB b (o + 8) comp (entNameLen b o) && comp.length == entNameLen b o

/-- The "is . or .." test (used by remove_directory and list_directory):
name_len == 1 and name[0] == '.'  or  name_len == 2 and name = "..". -/
def entIsDot (b : Block) (o : Nat) : Bool :=
  (entNameLen b o == 1 && b (o + 8) == 46) ||
  (entNameLen b o == 2 && b (o + 8) == 46 && b (o + 9) == 46)

/-! ## Block device and allocator layer (filesystem.cpp lines 167-364) -/

/-- read_block: fails iff block_num >= blocks_count (the backing file is
modelled as reliable). -/
def read_block (s : FS) (b : Nat) : Option Block :=
  if b < s.sb.blocks_count then some (s.data b) else none

/-- write_block: writes through iff block_num < blocks_count. -/
def write_block (s : FS) (b : Nat) (blk : Block) : FS × Bool :=
  if b < s.sb.blocks_count then ({ s with data := updFun s.data b blk }, true)
  else (s, false)

/-- read_inode (lines 257-276): rejects inode 0 and numbers beyond the
table; otherwise returns the stored record. -/
def read_inode (s : FS) (n : Nat) : Option Inode :=
  if n = 0 ∨ s.sb.inodes_count < n then none else some (s.inodes n)

/-- write_inode (lines 278-297). -/
def write_inode (s : FS) (n : Nat) (ino : Inode) : FS × Bool :=
  if n = 0 ∨ s.sb.inodes_count < n then (s, false)
  else ({ s with inodes := updFun s.inodes n ino }, true)

/-- allocate_block (lines 230-244): first-fit scan of the bitmap from
index 0; sets the bit, decrements free_blocks_count, returns the index
(0 when no free block exists). -/
def allocate_block (s : FS) : FS × Nat :=
  match (List.range s.sb.blocks_count).find? (fun b => !s.bitmap b) with
  | some b =>
      ({ s with bitmap := updFun s.bitmap b true,
                sb := { s.sb with free_blocks_count := s.sb.free_blocks_count - 1 } }, b)
  | none => (s, 0)

/-- free_block (lines 246-255): clears the bit and increments the free
count iff the block is in range and currently allocated; otherwise a
silent no-op. -/
def free_block (s : FS) (b : Nat) : FS :=
  if b < s.sb.blocks_count ∧ s.bitmap b = true then
    { s with bitmap := updFun s.bitmap b false,
             sb := { s.sb with free_blocks_count := s.sb.free_blocks_count + 1 } }
  else s

/-- allocate_inode (lines 299-313): scans inodes 1..inodes_count for the
first with links_count == 0, decrements free_inodes_count and returns it;
the record itself is NOT modified.  Returns 0 when none is free. -/
def allocate_inode (s : FS) : FS × Nat :=
  match (List.range' 1 s.sb.inodes_count).find? (fun i => (s.inodes i).links_count == 0) with
  | some i =>
      ({ s with sb := { s.sb with free_inodes_count := s.sb.free_inodes_count - 1 } }, i)
  | none => (s, 0)

/-- The 1024 pointers of an indirect block, read as little-endian 32-bit
values at byte offsets 4*i. -/
def indirectSlot (b : Block) (i : Nat) : Nat := read32 b (4 * i)

/-- Free a block if its number is non-zero (the guarded free_block calls
of free_inode). -/
def freeSome (s : FS) (b : Nat) : FS := if b ≠ 0 then free_block s b else s

/-- free_inode (lines 315-364): frees every non-zero direct pointer, then
(if blocks[12] != 0) every non-zero pointer of the indirect block and the
indirect block itself, writes back a zeroed inode and increments
free_inodes_count. -/
def free_inode (s : FS) (n : Nat) : FS :=
  if n = 0 ∨ s.sb.inodes_count < n then s
  else
    let ino := s.inodes n
    let s1 := (List.range directBlocks).foldl (fun t i => freeSome t (ino.blk i)) s
    let s2 :=
      if ino.blk directBlocks ≠ 0 then
        let ib := ino.blk directBlocks
        let s1a :=
          match read_block s1 ib with
          | some blk =>
              (List.range (blockSize / 4)).foldl (fun t i => freeSome t (indirectSlot blk i)) s1
          | none => s1
        free_block s1a ib
      else s1
    let s3 := (write_inode s2 n zeroInode).1
    { s3 with sb := { s3.sb with free_inodes_count := s3.sb.free_inodes_count + 1 } }

/-! ## Path handling (filesystem.cpp lines 366-482)

Paths and names are modelled as lists of bytes; 47 is the slash byte and
46 the dot byte. -/

/-- get_absolute_path (lines 366-383): prepend a slash when missing,
strip one trailing slash unless the whole path is the root. -/
def get_absolute_path (p : List Nat) : List Nat :=
  let a := if p = [] ∨ p.head? ≠ some 47 then 47 :: p else p
  if 1 < a.length ∧ a.getLast? = some 47 then a.dropLast else a

/-- Split the characters after the leading slash into components,
ignoring empty components (lines 398-419). -/
def splitCompsGo (cs cur : List Nat) : List (List Nat) :=
  match cs with
  | [] => if cur = [] then [] else [cur.reverse]
  | c :: rest =>
      if c = 47 then
        if cur = [] then splitCompsGo rest []
        else cur.reverse :: splitCompsGo rest []
      else splitCompsGo rest (c :: cur)

/-- Components of an absolute path (everything after the first byte). -/
def pathComps (abs : List Nat) : List (List Nat) := splitCompsGo (abs.drop 1) []

/-- One directory-block scan of find_inode_by_path (lines 446-467):
walk entries from byte offset o, stopping at the first entry with
inode == 0 or rec_len == 0, and return the inode of the first entry whose
name matches comp.  fuel bounds the number of slots visited (4096 is
always enough because each step advances by rec_len >= 1). -/
def searchBlockForComp (blk : Block) (comp : List Nat) : Nat → Nat → Option Nat
  | _, 0 => none
  | o, fuel + 1 =>
    if o < blockSize then
      if entInode blk o = 0 ∨ entRecLen blk o = 0 then none
      else if entMatches blk o comp then some (entInode blk o)
      else searchBlockForComp blk comp (o + entRecLen blk o) fuel
    else none

/-- The direct blocks iterated by the directory loops: indices 0..11 of
blocks, cut at the first zero pointer (for (i = 0; i < 12 and
blocks[i] != 0; i++)). -/
def directSeq (ino : Inode) : List Nat :=
  (ino.blocks.take directBlocks).takeWhile (· ≠ 0)

/-- Search all direct blocks of a directory inode for a component; blocks
that cannot be read are skipped (the continue of line 443). -/
def searchDirForComp (s : FS) (ino : Inode) (comp : List Nat) : Option Nat :=
  (directSeq ino).findSome? fun b =>
    match read_block s b with
    | some blk => searchBlockForComp blk comp 0 blockSize
    | none => none

/-- The component walk of find_inode_by_path (lines 421-479). -/
def walkComps (s : FS) : List (List Nat) → Nat → Nat
  | [], cur => cur
  | comp :: rest, cur =>
    match read_inode s cur with
    | none => 0
    | some ino =>
        if ino.mode ≠ 2 then 0
        else
          match searchDirForComp s ino comp with
          | none => 0
          | some nxt => walkComps s rest nxt

/-- find_inode_by_path (lines 385-482): returns the inode number, or 0 on
any failure. -/
def find_inode_by_path (s : FS) (p : List Nat) : Nat :=
  let a := get_absolute_path p
  if a = [47] then 1 else walkComps s (pathComps a) 1

/-- Position of the last slash of an absolute path
(abs_path.find_last_of('/')); get_absolute_path guarantees one exists. -/
def lastSlashIdx (abs : List Nat) : Nat :=
  match (abs.reverse).findIdx? (· = 47) with
  | some k => abs.length - 1 - k
  | none => 0

/-- The parent-path/name split used by create_directory, remove_directory,
remove_file, create_link and copy_from_system (the pos == 0 pattern of
lines 681-693 etc.): parent is "/" when the last slash is at position 0,
otherwise the prefix before it; name is the suffix after it. -/
def splitParent (abs : List Nat) : List Nat × List Nat :=
  let pos := lastSlashIdx abs
  if pos = 0 then ([47], abs.drop 1)
  else (abs.take pos, abs.drop (pos + 1))

/-! ## Directory-block scans of the composed operations -/

/-- The duplicate-name scan of create_file (lines 506-533): true iff some
entry before the terminator (inode == 0 or rec_len == 0) matches name. -/
def dupScanBlock (blk : Block) (name : List Nat) : Nat → Nat → Bool
  | _, 0 => false
  | o, fuel + 1 =>
    if o < blockSize then
      if entInode blk o = 0 ∨ entRecLen blk o = 0 then false
      else if entMatches blk o name then true
      else dupScanBlock blk name (o + entRecLen blk o) fuel
    else false

/-- The free-slot scan used by the insertion loops of create_file (lines
617-640) and create_link (lines 1207-1230): offset of the first slot with
inode == 0 or rec_len == 0, walking by rec_len.  (The "add at the end"
branches of lines 642-655 / 1232-1245 are dead code: the while loop only
exits with ptr >= block end when no slot was found, and the branch then
requires ptr + 264 <= block end, which is impossible.) -/
def findSlotOff (blk : Block) : Nat → Nat → Option Nat
  | _, 0 => none
  | o, fuel + 1 =>
    if o < blockSize then
      if entInode blk o = 0 ∨ entRecLen blk o = 0 then some o
      else findSlotOff blk (o + entRecLen blk o) fuel
    else none

/-- The emptiness scan of remove_directory (lines 729-747): true iff every
entry before the terminator is . or .. -/
def emptyScanBlock (blk : Block) : Nat → Nat → Bool
  | _, 0 => true
  | o, fuel + 1 =>
    if o < blockSize then
      if entInode blk o = 0 ∨ entRecLen blk o = 0 then true
      else if entIsDot blk o then emptyScanBlock blk (o + entRecLen blk o) fuel
      else false
    else true

/-- The entry-removal scan of remove_directory (lines 787-806) and
remove_file (lines 1311-1330): offset of the first entry before the
terminator whose inode field equals target. -/
def findRefOff (blk : Block) (target : Nat) : Nat → Nat → Option Nat
  | _, 0 => none
  | o, fuel + 1 =>
    if o < blockSize then
      if entInode blk o = 0 ∨ entRecLen blk o = 0 then none
      else if entInode blk o = target then some o
      else findRefOff blk target (o + entRecLen blk o) fuel
    else none

/-- Process one parent block of the entry-removal loop: zero the inode
field of the first entry referencing the target, if any. -/
def tombstoneStep (target : Nat) (t : FS) (b : Nat) : FS :=
  match read_block t b with
  | some blk =>
      match findRefOff blk target 0 blockSize with
      | some o => (write_block t b (writeBytes blk o (le32 0))).1
      | none => t
  | none => t

/-- Tombstone the first matching entry of each readable direct block
(the outer loops of lines 779-807 / 1303-1331: the inner while is left by
break after zeroing the entry, but the outer for keeps scanning the
remaining blocks). -/
def tombstoneBlocks (s : FS) (blks : List Nat) (target : Nat) : FS :=
  blks.foldl (tombstoneStep target) s

/-! ## create_file and the operations built on it -/

/-- True iff an entry named name already exists in one of the parent's
direct blocks (the duplicate check of create_file, lines 506-533). -/
def dupExists (s : FS) (pino : Inode) (name : List Nat) : Bool :=
  (directSeq pino).any fun b =>
    match read_block s b with
    | some blk => dupScanBlock blk name 0 blockSize
    | none => false

/-- The parent-entry insertion loop of create_file (lines 581-663).
Walks direct indices 0..11: a zero pointer gets a freshly allocated block
holding the entry at offset 0 (the C++ writes 4096 bytes from the
264-byte struct; the uninitialized tail is modelled as zero); a non-zero
pointer is scanned for a free slot.  Returns the possibly mutated state,
the possibly mutated parent inode, and an insertion flag (none of the
failure modes distinguishes "allocation failed" from "no room": both
lead to free_inode + return 0 in the caller). -/
def insertEntryLoop (ni ftype : Nat) (name : List Nat) :
    FS → Inode → List Nat → FS × Inode × Bool
  | s, pino, [] => (s, pino, false)
  | s, pino, i :: rest =>
    if pino.blk i = 0 then
      let alloc := allocate_block s
      if alloc.2 = 0 then (alloc.1, pino, false)
      else
        let pino2 := pino.setBlk i alloc.2
        let blk := writeBytes zeroBlock 0 (dirEntryBytes ni dirEntrySize name.length ftype name)
        ((write_block alloc.1 alloc.2 blk).1, pino2, true)
    else
      match read_block s (pino.blk i) with
      | some blk =>
          match findSlotOff blk 0 blockSize with
          | some o =>
              (((write_block s (pino.blk i)
                  (writeBytes blk o (dirEntryBytes ni dirEntrySize name.length ftype name))).1),
               pino, true)
          | none => insertEntryLoop ni ftype name s pino rest
      | none => insertEntryLoop ni ftype name s pino rest

/-- The dot block that create_file writes for a new directory (lines
547-575): "." (inode = new, rec_len = 12!) at offset 0 and ".."
(inode = parent, rec_len = 12) at offset 264; the remaining bytes of the
4096-byte write come from an uninitialized stack buffer and are modelled
as zero. -/
def newDirBlock (ni pnum : Nat) : Block :=
  writeBytes (writeBytes zeroBlock 0 (dirEntryBytes ni 12 1 2 [46]))
    dirEntrySize (dirEntryBytes pnum 12 2 2 [46, 46])

/-- Tail of create_file after the new inode is initialized (lines
577-674): write the new inode, insert the parent entry, write the parent
inode on success, or free_inode and fail. -/
def createFinish (s : FS) (nino : Inode) (ni ftype pnum : Nat) (name : List Nat)
    (pino : Inode) : FS × Nat :=
  let s3 := (write_inode s ni nino).1
  match insertEntryLoop ni ftype name s3 pino (List.range directBlocks) with
  | (s4, pino2, true) => ((write_inode s4 pnum pino2).1, ni)
  | (s4, _, false) => (free_inode s4 ni, 0)

/-- create_file (lines 484-675). -/
def create_file (s : FS) (parent_path name : List Nat) (ftype : Nat) : FS × Nat :=
  let pnum := find_inode_by_path s parent_path
  if pnum = 0 then (s, 0)
  else
    match read_inode s pnum with
    | none => (s, 0)
    | some pino =>
      if pino.mode ≠ 2 then (s, 0)
      else if dupExists s pino name then (s, 0)
      else
        let ai := allocate_inode s
        if ai.2 = 0 then (ai.1, 0)
        else
          let ni := ai.2
          let ninoBase : Inode := ⟨ftype, 0, 1, List.replicate 13 0⟩
          if ftype = 2 then
            let ab := allocate_block ai.1
            if ab.2 = 0 then (free_inode ab.1 ni, 0)   -- lines 551-555
            else
              let s2 := (write_block ab.1 ab.2 (newDirBlock ni pnum)).1
              createFinish s2 (ninoBase.setBlk 0 ab.2) ni ftype pnum name pino
          else createFinish ai.1 ninoBase ni ftype pnum name pino

/-- create_directory (lines 677-697): split into parent and name,
delegate to create_file with type DIRECTORY. -/
def create_directory (s : FS) (p : List Nat) : FS × Bool :=
  let sp := splitParent (get_absolute_path p)
  let r := create_file s sp.1 sp.2 2
  (r.1, r.2 ≠ 0)

/-- The emptiness check of remove_directory over all direct blocks;
unreadable blocks are skipped (line 726). -/
def dirEmptyCheck (s : FS) (dino : Inode) : Bool :=
  (directSeq dino).all fun b =>
    match read_block s b with
    | some blk => emptyScanBlock blk 0 blockSize
    | none => true

/-- remove_directory (lines 699-813). -/
def remove_directory (s : FS) (p : List Nat) : FS × Bool :=
  let dnum := find_inode_by_path s p
  if dnum = 0 then (s, false)
  else
    match read_inode s dnum with
    | none => (s, false)
    | some dino =>
      if dino.mode ≠ 2 then (s, false)
      else if ¬ dirEmptyCheck s dino then (s, false)
      else
        let sp := splitParent (get_absolute_path p)
        let pnum := find_inode_by_path s sp.1
        if pnum = 0 then (s, false)
        else
          match read_inode s pnum with
          | none => (s, false)
          | some pino =>
            let s1 := tombstoneBlocks s (directSeq pino) dnum
            (free_inode s1 dnum, true)

/-- One directory-block scan of list_directory (lines 1092-1120): stop at
the first entry with inode == 0 or rec_len == 0, skip . and .., emit
(name, child.size) for the rest; entries whose inode cannot be read are
skipped. -/
def listScanBlock (s : FS) (blk : Block) : Nat → Nat → List (List Nat × Nat)
  | _, 0 => []
  | o, fuel + 1 =>
    if o < blockSize then
      if entInode blk o = 0 ∨ entRecLen blk o = 0 then []
      else if entIsDot blk o then listScanBlock s blk (o + entRecLen blk o) fuel
      else
        let rest := listScanBlock s blk (o + entRecLen blk o) fuel
        match read_inode s (entInode blk o) with
        | some e => (entName blk o, e.size) :: rest
        | none => rest
    else []

/-- list_directory (lines 1061-1124). -/
def list_directory (s : FS) (p : List Nat) : List (List Nat × Nat) :=
  let d := find_inode_by_path s p
  if d = 0 then []
  else
    match read_inode s d with
    | none => []
    | some dino =>
      if dino.mode ≠ 2 then []
      else
        (directSeq dino).foldl
          (fun acc b =>
            match read_block s b with
            | some blk => acc ++ listScanBlock s blk 0 blockSize
            | none => acc)
          []

/-- The insertion loop of create_link (lines 1175-1248).  It differs from
create_file's loop: an allocation failure aborts the whole operation with
no rollback (result flag 2); after filling a free slot the code re-writes
the same entry and only then breaks IF the slot was not the first of the
block and a whole struct fits below the block end, otherwise the for loop
continues with the next direct block.  Result flag: 0 = fell through the
loop (create_link proceeds anyway!), 1 = inserted, 2 = abort. -/
def linkInsertLoop (t tmode : Nat) (name : List Nat) :
    FS → Inode → List Nat → FS × Inode × Nat
  | s, pino, [] => (s, pino, 0)
  | s, pino, i :: rest =>
    if pino.blk i = 0 then
      let alloc := allocate_block s
      if alloc.2 = 0 then (alloc.1, pino, 2)
      else
        let pino2 := pino.setBlk i alloc.2
        let blk := writeBytes zeroBlock 0 (dirEntryBytes t dirEntrySize name.length tmode name)
        ((write_block alloc.1 alloc.2 blk).1, pino2, 1)
    else
      match read_block s (pino.blk i) with
      | some blk =>
          match findSlotOff blk 0 blockSize with
          | some o =>
              let blk2 := writeBytes blk o (dirEntryBytes t dirEntrySize name.length tmode name)
              let s1 := (write_block s (pino.blk i) blk2).1
              if o ≠ 0 ∧ o + dirEntrySize ≤ blockSize then
                -- the duplicate write of lines 1232-1244 stores identical bytes
                (((write_block s1 (pino.blk i) blk2).1), pino, 1)
              else linkInsertLoop t tmode name s1 pino rest
          | none => linkInsertLoop t tmode name s pino rest
      | none => linkInsertLoop t tmode name s pino rest

/-- create_link (lines 1126-1258).  Note that after the insertion loop the
link count is incremented and written back unconditionally, even when no
entry was inserted. -/
def create_link (s : FS) (target lpath : List Nat) : FS × Bool :=
  let t := find_inode_by_path s target
  if t = 0 then (s, false)
  else
    match read_inode s t with
    | none => (s, false)
    | some tino =>
      let sp := splitParent (get_absolute_path lpath)
      let pnum := find_inode_by_path s sp.1
      if pnum = 0 then (s, false)
      else
        match read_inode s pnum with
        | none => (s, false)
        | some pino =>
          if pino.mode ≠ 2 then (s, false)
          else
            match linkInsertLoop t tino.mode sp.2 s pino (List.range directBlocks) with
            | (s1, _, 2) => (s1, false)
            | (s1, pino2, _) =>
                let s2 := (write_inode s1 t { tino with links_count := tino.links_count + 1 }).1
                ((write_inode s2 pnum pino2).1, true)

/-- remove_file (lines 1260-1348): tombstone the matching parent entries,
decrement links_count, free the inode when it reaches zero.  There is no
file-type check.  (links_count is a uint32_t; the decrement is modelled
with Nat subtraction, which agrees with the C++ whenever links_count >= 1,
i.e. whenever the inode is live.) -/
def remove_file (s : FS) (p : List Nat) : FS × Bool :=
  let f := find_inode_by_path s p
  if f = 0 then (s, false)
  else
    match read_inode s f with
    | none => (s, false)
    | some fino =>
      let sp := splitParent (get_absolute_path p)
      let pnum := find_inode_by_path s sp.1
      if pnum = 0 then (s, false)
      else
        match read_inode s pnum with
        | none => (s, false)
        | some pino =>
          let s1 := tombstoneBlocks s (directSeq pino) f
          if fino.links_count - 1 = 0 then (free_inode s1 f, true)
          else ((write_inode s1 f { fino with links_count := fino.links_count - 1 }).1, true)

/-! ## append_to_file (lines 1350-1524) -/

/-- The deterministic fill pattern of line 1379. -/
def appendByte (i : Nat) : Nat := 65 + i % 26

/-- The block-allocation loop of append_to_file (lines 1434-1516).  cb is
current_blocks, bl is bytes_left, off is data_offset.  Each iteration
consumes at least one byte, so fuel = initial bytes_left makes the fuel
case unreachable with bl > 0.  On any failure the partially updated
in-memory inode is discarded by the caller (the C++ returns false without
write_inode), so only the state matters then. -/
def appendLoop : Nat → FS → Inode → Nat → Nat → Nat → FS × Inode × Bool
  | 0, s, fino, _, _, _ => (s, fino, true)
  | fuel + 1, s, fino, cb, bl, off =>
    if bl = 0 then (s, fino, true)
    else
      let alloc := allocate_block s
      if alloc.2 = 0 then (alloc.1, fino, false)
      else
        let nb := alloc.2
        let btw := min bl blockSize
        let bd := writeBytes zeroBlock 0 ((List.range btw).map fun k => appendByte (off + k))
        let w := write_block alloc.1 nb bd
        if w.2 = false then (free_block w.1 nb, fino, false)
        else
          if cb < directBlocks then
            appendLoop fuel w.1 (fino.setBlk cb nb) (cb + 1) (bl - btw) (off + btw)
          else
            let ii := cb - directBlocks
            if ii = 0 then
              let alloc2 := allocate_block w.1
              if alloc2.2 = 0 then (free_block alloc2.1 nb, fino, false)
              else
                let ib := alloc2.2
                let fino2 := fino.setBlk directBlocks ib
                let ibuf := writeBytes zeroBlock 0 (le32 nb)
                let w2 := write_block alloc2.1 ib ibuf
                if w2.2 = false then
                  (free_block (free_block w2.1 ib) nb, fino2.setBlk directBlocks 0, false)
                else appendLoop fuel w2.1 fino2 (cb + 1) (bl - btw) (off + btw)
            else
              match read_block w.1 (fino.blk directBlocks) with
              | none => (free_block w.1 nb, fino, false)
              | some ib =>
                  -- indirect_pointers[ii] = nb; with ii >= 1024 the write
                  -- lands beyond the 4096 persisted bytes (no capacity
                  -- check exists) and the pointer is silently lost
                  let ib2 := writeBytes ib (4 * ii) (le32 nb)
                  let w3 := write_block w.1 (fino.blk directBlocks) ib2
                  if w3.2 = false then (free_block w3.1 nb, fino, false)
                  else appendLoop fuel w3.1 fino (cb + 1) (bl - btw) (off + btw)

/-- The tail fill of append_to_file (lines 1387-1431): when the last used
block is partially filled, write the head of the appended bytes into its
tail.  Returns none when the function must fail (unreadable block or
failed write); otherwise the new state, the remaining byte count and the
data offset. -/
def appendTailFill (s : FS) (fino : Inode) (current_blocks pos bl0 : Nat) :
    Option (FS × Nat × Nat) :=
  if 0 < pos ∧ 0 < current_blocks then
    let bidx := current_blocks - 1
    let bn? : Option Nat :=
      if bidx < directBlocks then some (fino.blk bidx)
      else
        match read_block s (fino.blk directBlocks) with
        | some ib => some (indirectSlot ib (bidx - directBlocks))
        | none => none
    match bn? with
    | none => none
    | some bn =>
      match read_block s bn with
      | none => none
      | some bd =>
        let btw := min bl0 (blockSize - pos)
        let bd2 := writeBytes bd pos ((List.range btw).map appendByte)
        let w := write_block s bn bd2
        if w.2 then some (w.1, bl0 - btw, btw) else none
  else some (s, bl0, 0)

/-- append_to_file (lines 1350-1524).  bytes is a size_t; bytes_left is a
uint32_t, hence the mod 2^32; the final size update adds the untruncated
size_t into the uint32_t size field. -/
def append_to_file (s : FS) (p : List Nat) (bytes : Nat) : FS × Bool :=
  let f := find_inode_by_path s p
  if f = 0 then (s, false)
  else
    match read_inode s f with
    | none => (s, false)
    | some fino =>
      if fino.mode ≠ 1 then (s, false)
      else
        let current_size := fino.size
        let current_blocks := (current_size + blockSize - 1) / blockSize
        let pos := current_size % blockSize
        let bl0 := bytes % 2 ^ 32
        match appendTailFill s fino current_blocks pos bl0 with
        | none => (s, false)
        | some (s1, bl, off) =>
          let lp := appendLoop bl s1 fino current_blocks bl off
          if lp.2.2 = false then (lp.1, false)
          else
            ((write_inode lp.1 f { lp.2.1 with size := (current_size + bytes) % 2 ^ 32 }).1, true)

/-! ## truncate_file (lines 1526-1607) -/

/-- One step of the indirect-slot freeing loop of truncate_file (lines
1567-1575): free the block named by slot i of the in-memory pointer
buffer and zero the slot. -/
def truncIndStep (acc : FS × Block) (i : Nat) : FS × Block :=
  if indirectSlot acc.2 i ≠ 0 then
    (free_block acc.1 (indirectSlot acc.2 i), writeBytes acc.2 (4 * i) (le32 0))
  else acc

/-- The indirect-slot freeing loop over slots lo .. lo + len - 1. -/
def truncIndFold (s : FS) (ib : Block) (lo len : Nat) : FS × Block :=
  (List.range' lo len).foldl truncIndStep (s, ib)

/-- One step of the direct-block freeing loop of truncate_file (lines
1592-1599). -/
def truncDirStep (acc : FS × Inode) (i : Nat) : FS × Inode :=
  if acc.2.blk i ≠ 0 then (free_block acc.1 (acc.2.blk i), acc.2.setBlk i 0) else acc

/-- The direct-block freeing loop over indices lo .. lo + len - 1. -/
def truncDirFold (s : FS) (ino : Inode) (lo len : Nat) : FS × Inode :=
  (List.range' lo len).foldl truncDirStep (s, ino)

/-- truncate_file: remove the last bytes bytes of a regular file, freeing
the blocks past the new end and, when fewer than 13 blocks remain, the
indirect block itself. -/
def truncate_file (s : FS) (p : List Nat) (bytes : Nat) : FS × Bool :=
  let f := find_inode_by_path s p
  if f = 0 then (s, false)
  else
    match read_inode s f with
    | none => (s, false)
    | some fino =>
      if fino.mode ≠ 1 then (s, false)
      else if fino.size < bytes then (s, false)
      else
        let new_size := fino.size - bytes
        let new_blocks := (new_size + blockSize - 1) / blockSize
        let cur_blocks := (fino.size + blockSize - 1) / blockSize
        let freed : FS × Inode :=
          if new_blocks < cur_blocks then
            -- indirect part (lines 1560-1589)
            let fi1 : FS × Inode :=
              if directBlocks < cur_blocks ∧ fino.blk directBlocks ≠ 0 then
                match read_block s (fino.blk directBlocks) with
                | none => (s, fino)
                | some ib =>
                  let lo := new_blocks - directBlocks   -- Nat sub = the ?: of line 1567
                  let hi := cur_blocks - directBlocks
                  let fb := truncIndFold s ib lo (hi - lo)
                  if new_blocks ≤ directBlocks then
                    (free_block fb.1 (fino.blk directBlocks), fino.setBlk directBlocks 0)
                  else
                    ((write_block fb.1 (fino.blk directBlocks) fb.2).1, fino)
              else (s, fino)
            -- direct part (lines 1592-1599)
            truncDirFold fi1.1 fi1.2 new_blocks (min cur_blocks directBlocks - new_blocks)
          else (s, fino)
        ((write_inode freed.1 f { freed.2 with size := new_size }).1, true)

/-! ## copy_to_system and copy_from_system (lines 815-1059)

The host file system is modelled as a byte map plus a length: an input
file is (content, size); the output file produced by copy_to_system is
accumulated the same way. -/

/-- Append w bytes of a block to the host output file. -/
def hostAppend (out : (Nat → Nat) × Nat) (bd : Block) (w : Nat) : (Nat → Nat) × Nat :=
  (fun k => if out.2 ≤ k ∧ k < out.2 + w then bd (k - out.2) else out.1 k, out.2 + w)

/-- The direct-block loop of copy_to_system (lines 846-858). -/
def ctsDirect (s : FS) (fino : Inode) : Nat → Nat → Nat → ((Nat → Nat) × Nat) →
    ((Nat → Nat) × Nat) × Nat × Bool
  | 0, _, remaining, out => (out, remaining, true)
  | fuel + 1, i, remaining, out =>
    if i < directBlocks ∧ 0 < remaining ∧ fino.blk i ≠ 0 then
      match read_block s (fino.blk i) with
      | none => (out, remaining, false)
      | some bd =>
          let w := min remaining blockSize
          ctsDirect s fino fuel (i + 1) (remaining - w) (hostAppend out bd w)
    else (out, remaining, true)

/-- The indirect loop of copy_to_system (lines 870-887); zero pointers
are skipped with continue. -/
def ctsIndirect (s : FS) (ib : Block) : Nat → Nat → Nat → ((Nat → Nat) × Nat) →
    ((Nat → Nat) × Nat) × Bool
  | 0, _, _, out => (out, true)
  | fuel + 1, i, remaining, out =>
    if i < blockSize / 4 ∧ 0 < remaining then
      if indirectSlot ib i = 0 then ctsIndirect s ib fuel (i + 1) remaining out
      else
        match read_block s (indirectSlot ib i) with
        | none => (out, false)
        | some bd =>
            let w := min remaining blockSize
            ctsIndirect s ib fuel (i + 1) (remaining - w) (hostAppend out bd w)
    else (out, true)

/-- copy_to_system (lines 815-892): returns the bytes written to the host
file and the success flag. -/
def copy_to_system (s : FS) (p : List Nat) : ((Nat → Nat) × Nat) × Bool :=
  let out0 : (Nat → Nat) × Nat := (fun _ => 0, 0)
  let f := find_inode_by_path s p
  if f = 0 then (out0, false)
  else
    match read_inode s f with
    | none => (out0, false)
    | some fino =>
      if fino.mode ≠ 1 then (out0, false)
      else
        match ctsDirect s fino directBlocks 0 fino.size out0 with
        | (out, _, false) => (out, false)
        | (out, remaining, true) =>
          if 0 < remaining ∧ fino.blk directBlocks ≠ 0 then
            match read_block s (fino.blk directBlocks) with
            | none => (out, false)
            | some ib => ctsIndirect s ib (blockSize / 4) 0 remaining out
          else (out, true)

/-- The rollback tail shared by the failure paths of copy_from_system:
size = 0, write_inode, free_inode (so the blocks recorded in the
in-memory inode at that point are freed through free_inode). -/
def cfsAbort (s : FS) (ino : Inode) (f : Nat) : FS :=
  free_inode ((write_inode s f { ino with size := 0 }).1) f

/-- Free (and zero in the in-memory inode) the first bcount direct blocks
(the cleanup loops of lines 979-983 / 1006-1010 / 1028-1032). -/
def cfsFreeDirect (s : FS) (ino : Inode) (bcount : Nat) : FS × Inode :=
  (List.range bcount).foldl
    (fun (acc : FS × Inode) j => (free_block acc.1 (acc.2.blk j), acc.2.setBlk j 0)) (s, ino)

/-- The direct-block fill loop of copy_from_system (lines 940-970).
Returns the new state, inode, remaining size, host offset, block count
and a success flag; on failure the returned state already includes the
rollback. -/
def cfsDirect (hostData : Nat → Nat) (f : Nat) :
    Nat → Nat → FS → Inode → Nat → Nat → Nat → FS × Inode × Nat × Nat × Nat × Bool
  | 0, _, s, ino, remaining, off, bcount => (s, ino, remaining, off, bcount, true)
  | fuel + 1, i, s, ino, remaining, off, bcount =>
    if i < directBlocks ∧ 0 < remaining then
      let rs := min remaining blockSize
      let bd := writeBytes zeroBlock 0 ((List.range rs).map fun k => hostData (off + k))
      let alloc := allocate_block s
      if alloc.2 = 0 then (cfsAbort alloc.1 ino f, ino, remaining, off, bcount, false)
      else
        let ino2 := ino.setBlk i alloc.2
        match write_block alloc.1 alloc.2 bd with
        | (s2, false) =>
            let s3 := free_block s2 alloc.2
            (cfsAbort s3 (ino2.setBlk i 0) f, ino, remaining, off, bcount, false)
        | (s2, true) => cfsDirect hostData f fuel (i + 1) s2 ino2 (remaining - rs) (off + rs) (bcount + 1)
    else (s, ino, remaining, off, bcount, true)

/-- The indirect fill loop of copy_from_system (lines 995-1047).  ib is
the freshly allocated indirect block, buf the in-memory pointer array
(written back once after the loop), icount the number of filled slots. -/
def cfsIndirect (hostData : Nat → Nat) (f ib : Nat) (bcount : Nat) :
    Nat → Nat → FS → Inode → Block → Nat → Nat → Nat → FS × Block × Bool
  | 0, _, s, _, buf, _, _, _ => (s, buf, true)
  | fuel + 1, i, s, ino, buf, icount, remaining, off =>
    if i < blockSize / 4 ∧ 0 < remaining then
      let rs := min remaining blockSize
      let bd := writeBytes zeroBlock 0 ((List.range rs).map fun k => hostData (off + k))
      let alloc := allocate_block s
      if alloc.2 = 0 then
        let fd := cfsFreeDirect alloc.1 ino bcount
        let s2 := (List.range icount).foldl (fun t j => free_block t (indirectSlot buf j)) fd.1
        let s3 := free_block s2 ib
        (cfsAbort s3 ({ fd.2.setBlk directBlocks 0 with size := 0 }) f, buf, false)
      else
        let buf2 := writeBytes buf (4 * i) (le32 alloc.2)
        match write_block alloc.1 alloc.2 bd with
        | (s2, false) =>
            let s3 := free_block s2 alloc.2
            let fd := cfsFreeDirect s3 ino bcount
            let s4 := (List.range icount).foldl (fun t j => free_block t (indirectSlot buf2 j)) fd.1
            let s5 := free_block s4 ib
            (cfsAbort s5 ({ fd.2.setBlk directBlocks 0 with size := 0 }) f, buf2, false)
        | (s2, true) => cfsIndirect hostData f ib bcount fuel (i + 1) s2 ino buf2 (icount + 1) (remaining - rs) (off + rs)
    else (s, buf, true)

/-- copy_from_system (lines 894-1059): import a host file (content, size)
at the given virtual path.  remaining_size is a uint32_t, hence the
mod 2^32 truncation of the host size; the stored size field gets the same
truncated value. -/
def copy_from_system (s : FS) (hostData : Nat → Nat) (hostSize : Nat) (vpath : List Nat) :
    FS × Bool :=
  let sp := splitParent (get_absolute_path vpath)
  let cf := create_file s sp.1 sp.2 1
  if cf.2 = 0 then (cf.1, false)
  else
    let f := cf.2
    match read_inode cf.1 f with
    | none => (cf.1, false)
    | some fino =>
      let remaining0 := hostSize % 2 ^ 32
      match cfsDirect hostData f directBlocks 0 cf.1 fino remaining0 0 0 with
      | (s1, _, _, _, _, false) => (s1, false)
      | (s1, ino1, remaining, off, bcount, true) =>
        if 0 < remaining then
          let alloc := allocate_block s1
          if alloc.2 = 0 then
            let fd := cfsFreeDirect alloc.1 ino1 bcount
            (cfsAbort fd.1 ({ fd.2 with size := 0 }) f, false)
          else
            let ib := alloc.2
            let ino2 := ino1.setBlk directBlocks ib
            match cfsIndirect hostData f ib bcount (blockSize / 4) 0 alloc.1 ino2 zeroBlock 0 remaining off with
            | (s2, _, false) => (s2, false)
            | (s2, buf, true) =>
                let s3 := (write_block s2 ib buf).1
                ((write_inode s3 f { ino2 with size := hostSize % 2 ^ 32 }).1, true)
        else
          ((write_inode s1 f { ino1 with size := hostSize % 2 ^ 32 }).1, true)

/-- get_disk_usage (lines 1609-1615). -/
def get_disk_usage (s : FS) : Nat × Nat :=
  (s.sb.blocks_count - s.sb.free_blocks_count, s.sb.blocks_count)

/-! ## create_disk (lines 21-122) -/

/-- The state produced by formatting an image of the requested size and
mounting it: blocks_count rounded up, one inode per four blocks, the
inode table right after superblock and bitmap, the root directory (inode
1) with its "." and ".." entries (created with rec_len = 264 here, unlike
the rec_len = 12 entries that create_file writes for subdirectories). -/
def mkfs (size : Nat) : FS :=
  let num := (size + blockSize - 1) / blockSize
  let icount := num / 4
  let iblocks := (icount * 128 + blockSize - 1) / blockSize
  let sb : Superblock := ⟨num, num - 2 - iblocks, icount, icount - 1⟩
  let s0 : FS := ⟨sb, fun b => decide (b < 2 + iblocks), fun _ => zeroInode, fun _ => zeroBlock⟩
  let ab := allocate_block s0
  let rootIno : Inode := ⟨2, 0, 1, ab.2 :: List.replicate 12 0⟩
  let blk := writeBytes (writeBytes zeroBlock 0 (dirEntryBytes 1 dirEntrySize 1 2 [46]))
    dirEntrySize (dirEntryBytes 1 dirEntrySize 2 2 [46, 46])
  let s2 := (write_block ab.1 ab.2 blk).1
  { s2 with inodes := updFun s2.inodes 1 rootIno }

/-! ## Counting directory entries and the section-3 invariants -/

/-- Count the entries of one directory block whose inode field equals
target.  Per the on-disk format the walk advances by rec_len, stops at
the first slot with rec_len = 0 and skips tombstones (inode = 0); when
dots is false the . and .. entries are not counted. -/
def countRefsBlock (blk : Block) (target : Nat) (dots : Bool) : Nat → Nat → Nat
  | _, 0 => 0
  | o, fuel + 1 =>
    if o < blockSize then
      if entRecLen blk o = 0 then 0
      else
        let rest := countRefsBlock blk target dots (o + entRecLen blk o) fuel
        if entInode blk o = 0 then rest
        else if !dots && entIsDot blk o then rest
        else if entInode blk o = target then rest + 1
        else rest
    else 0

/-- Entries referencing target in all direct blocks of one directory. -/
def dirRefCount (s : FS) (dino : Inode) (target : Nat) (dots : Bool) : Nat :=
  (directSeq dino).foldl
    (fun acc b =>
      match read_block s b with
      | some blk => acc + countRefsBlock blk target dots 0 blockSize
      | none => acc)
    0

/-- Number of directory entries referencing target anywhere in the tree:
sum over every live directory inode of the per-directory count. -/
def countTree (s : FS) (target : Nat) (dots : Bool) : Nat :=
  (List.range' 1 s.sb.inodes_count).foldl
    (fun acc i =>
      let ino := s.inodes i
      if 0 < ino.links_count ∧ ino.mode = 2 then acc + dirRefCount s ino target dots
      else acc)
    0

/-- Number of inode-table blocks K = ceil(inodes_count * 128 / 4096). -/
def inodeTableBlocks (s : FS) : Nat :=
  (s.sb.inodes_count * 128 + blockSize - 1) / blockSize

/-- All non-zero block pointers held by inode i: direct pointers, the
indirect block, and the pointers stored in the indirect block. -/
def inodePtrs (s : FS) (i : Nat) : List Nat :=
  let ino := s.inodes i
  (((List.range directBlocks).map ino.blk).filter (· ≠ 0)) ++
    (if ino.blk directBlocks ≠ 0 then
      ino.blk directBlocks ::
        (((List.range (blockSize / 4)).map
            (indirectSlot (s.data (ino.blk directBlocks)))).filter (· ≠ 0))
    else [])

/-- Inode numbers with links_count > 0 (live inodes). -/
def liveInodes (s : FS) : List Nat :=
  (List.range' 1 s.sb.inodes_count).filter fun i => 0 < (s.inodes i).links_count

/-- All block pointers of all live inodes. -/
def allLivePtrs (s : FS) : List Nat := ((liveInodes s).map (inodePtrs s)).flatten

/-- The ". and .." shape of a directory's first block, per the data model
of spec section 3: "." (self) in slot 0 and ".." in slot 1, slots being
the fixed 264-byte stride of the entry struct; for the root ".." is 1. -/
def dirDotsOk (s : FS) (i : Nat) : Bool :=
  let ino := s.inodes i
  let b := ino.blk 0
  (b != 0) &&
    (let blk := s.data b
     entInode blk 0 == i && entNameLen blk 0 == 1 && blk 8 == 46 &&
     entInode blk dirEntrySize != 0 && entNameLen blk dirEntrySize == 2 &&
     blk (dirEntrySize + 8) == 46 && blk (dirEntrySize + 9) == 46 &&
     (i != 1 || entInode blk dirEntrySize == 1))

/-- The invariants of spec section 3 (and the equivalent list of spec
section 8), as a decidable predicate on states:
1. blocks 0, 1 and the inode table are always allocated;
2. a bitmap bit is set iff the block is metadata or referenced from some
   live inode;
3. every referenced block is a data block inside the image;
4. no block is referenced twice (no two inodes share a data block);
5. free_blocks_count matches the number of clear bitmap bits;
6. free_inodes_count matches the number of inodes with links_count = 0;
7. every live directory's first block carries . (self) and .. in its
   first two slots;
8. a regular file's size is at most (12 + 1024) * 4096;
9. for every inode i >= 2 with links_count > 0, the number of directory
   entries referencing i, not counting . and .. entries, equals
   links_count.  (The . and .. entries are excluded because this design
   does not count them in links_count, as the spec notes for
   remove_directory; the root inode 1 is exempt because it has
   links_count = 1 and no parent entry at all.) -/
def invariantsB (s : FS) : Bool :=
  let K := inodeTableBlocks s
  let ptrs := allLivePtrs s
  ((List.range (2 + K)).all fun b => s.bitmap b) &&
  ((List.range s.sb.blocks_count).all fun b =>
      s.bitmap b == (decide (b < 2 + K) || ptrs.contains b)) &&
  (ptrs.all fun p => decide (2 + K ≤ p) && decide (p < s.sb.blocks_count)) &&
  (decide ptrs.Nodup) &&
  (s.sb.free_blocks_count ==
    s.sb.blocks_count - ((List.range s.sb.blocks_count).filter fun b => s.bitmap b).length) &&
  (s.sb.free_inodes_count ==
    ((List.range' 1 s.sb.inodes_count).filter fun i => (s.inodes i).links_count == 0).length) &&
  ((liveInodes s).all fun i => if (s.inodes i).mode == 2 then dirDotsOk s i else true) &&
  ((liveInodes s).all fun i =>
    if (s.inodes i).mode == 1 then decide ((s.inodes i).size ≤ maxFileBlocks * blockSize)
    else true) &&
  ((List.range' 2 (s.sb.inodes_count - 1)).all fun i =>
    if 0 < (s.inodes i).links_count then countTree s i false == (s.inodes i).links_count
    else true)

/-! ## Concrete states used by the counterexamples and witnesses

All crafted directory blocks use the regular 264-byte stride with
rec_len = 264, the shape produced by the root-directory format path and
by every entry insertion of create_file / create_link. -/

/-- Byte k of a 264-byte directory entry with rec_len = 264.  For names
without NUL bytes and shorter than 256 bytes this equals byte k of
dirEntryBytes ino 264 nl ft name, but evaluates in constant time. -/
def entByte (ino nl ft : Nat) (name : List Nat) (k : Nat) : Nat :=
  if k < 4 then ino / 256 ^ k % 256
  else if k = 4 then dirEntrySize % 256
  else if k = 5 then dirEntrySize / 256
  else if k = 6 then nl % 256
  else if k = 7 then ft % 256
  else name.getD (k - 8) 0

/-- Place a directory entry in slot i (byte offset i * 264) of a block,
with rec_len = 264. -/
def putEnt (b : Block) (i ino ft : Nat) (name : List Nat) : Block :=
  fun o =>
    if i * dirEntrySize ≤ o ∧ o < i * dirEntrySize + dirEntrySize then
      entByte ino name.length ft name (o - i * dirEntrySize)
    else b o

/-- A small image: 8 blocks (0 superblock, 1 bitmap, 2 inode table for 32
inodes, 3 root block), root plus two regular files f (empty) and g
(3 blocks: 4, 5, 6); exactly one free block (7).  Used to make the second
allocation of an append fail. -/
def stateAppendFail : FS where
  sb := ⟨8, 1, 32, 29⟩
  bitmap := fun b => decide (b < 7)
  inodes := fun i =>
    if i = 1 then ⟨2, 0, 1, [3, 0, 0, 0, 0, 0, 0, 0, 0, 0, 0, 0, 0]⟩
    else if i = 2 then ⟨1, 0, 1, List.replicate 13 0⟩
    else if i = 3 then ⟨1, 12288, 1, [4, 5, 6, 0, 0, 0, 0, 0, 0, 0, 0, 0, 0]⟩
    else zeroInode
  data := fun b =>
    if b = 3 then
      putEnt (putEnt (putEnt (putEnt zeroBlock 0 1 2 [46]) 1 1 2 [46, 46]) 2 2 1 [102])
        3 3 1 [103]
    else zeroBlock

/-- An image whose directory /d (inode 2, block 4) contains ., .., a
tombstoned slot (inode = 0) and, after it, a live entry c referencing
inode 3.  Root is block 3. -/
def stateTombstoneDir : FS where
  sb := ⟨8, 3, 32, 29⟩
  bitmap := fun b => decide (b < 5)
  inodes := fun i =>
    if i = 1 then ⟨2, 0, 1, [3, 0, 0, 0, 0, 0, 0, 0, 0, 0, 0, 0, 0]⟩
    else if i = 2 then ⟨2, 0, 1, [4, 0, 0, 0, 0, 0, 0, 0, 0, 0, 0, 0, 0]⟩
    else if i = 3 then ⟨1, 0, 1, List.replicate 13 0⟩
    else zeroInode
  data := fun b =>
    if b = 3 then
      putEnt (putEnt (putEnt zeroBlock 0 1 2 [46]) 1 1 2 [46, 46]) 2 2 2 [100]
    else if b = 4 then
      putEnt (putEnt (putEnt (putEnt zeroBlock 0 2 2 [46]) 1 1 2 [46, 46]) 2 0 1 [120])
        3 3 1 [99]
    else zeroBlock

/-- An image as stateTombstoneDir but with directory /d holding one live
child c (no tombstone): used as the witness input of remove_file applied
to a non-empty directory. -/
def stateDirTree : FS where
  sb := ⟨8, 3, 32, 29⟩
  bitmap := fun b => decide (b < 5)
  inodes := fun i =>
    if i = 1 then ⟨2, 0, 1, [3, 0, 0, 0, 0, 0, 0, 0, 0, 0, 0, 0, 0]⟩
    else if i = 2 then ⟨2, 0, 1, [4, 0, 0, 0, 0, 0, 0, 0, 0, 0, 0, 0, 0]⟩
    else if i = 3 then ⟨1, 0, 1, List.replicate 13 0⟩
    else zeroInode
  data := fun b =>
    if b = 3 then
      putEnt (putEnt (putEnt zeroBlock 0 1 2 [46]) 1 1 2 [46, 46]) 2 2 2 [100]
    else if b = 4 then
      putEnt (putEnt (putEnt zeroBlock 0 2 2 [46]) 1 1 2 [46, 46]) 2 3 1 [99]
    else zeroBlock

/-- A completely full root directory block: "." and ".." followed by
fourteen live file entries in slots 2..15 (inodes 2..15, one-byte names
'a'..'n'); slot 15 sits at byte offset 3960, the partial slot at the end
of the block. -/
def fullRootBlock : Block := fun o =>
  let s := o / dirEntrySize
  let k := o % dirEntrySize
  if s = 0 then entByte 1 1 2 [46] k
  else if s = 1 then entByte 1 2 2 [46, 46] k
  else entByte s 1 1 [95 + s] k

/-- An image whose root block is completely full: ., .., thirteen live
children in slots 2..14 (inodes 2..14) and a sixteenth live entry at
byte offset 3960 (inode 15), so that an entry insertion must allocate a
second root directory block.  Four blocks (4..7) are free. -/
def stateFullRoot : FS where
  sb := ⟨8, 4, 32, 17⟩
  bitmap := fun b => decide (b < 4)
  inodes := fun i =>
    if i = 1 then ⟨2, 0, 1, [3, 0, 0, 0, 0, 0, 0, 0, 0, 0, 0, 0, 0]⟩
    else if 2 ≤ i ∧ i ≤ 15 then ⟨1, 0, 1, List.replicate 13 0⟩
    else zeroInode
  data := fun b => if b = 3 then fullRootBlock else zeroBlock

/-- An image holding a regular file f of exactly 12 + 1024 blocks
(size 4243456 bytes = the capacity limit): direct blocks 4..15, indirect
block 16 whose 1024 slots point to blocks 17..1040.  One block (1041) is
free; blocks_count is 1042. -/
def stateBigFile : FS where
  sb := ⟨1042, 1, 32, 30⟩
  bitmap := fun b => decide (b < 1041)
  inodes := fun i =>
    if i = 1 then ⟨2, 0, 1, [3, 0, 0, 0, 0, 0, 0, 0, 0, 0, 0, 0, 0]⟩
    else if i = 2 then ⟨1, 4243456, 1, [4, 5, 6, 7, 8, 9, 10, 11, 12, 13, 14, 15, 16]⟩
    else zeroInode
  data := fun b =>
    if b = 3 then
      putEnt (putEnt (putEnt zeroBlock 0 1 2 [46]) 1 1 2 [46, 46]) 2 2 1 [102]
    else if b = 16 then (fun i => (17 + i / 4) / 256 ^ (i % 4) % 256)
    else zeroBlock

/-- A regular file of 12 * 4096 + 1 bytes: direct blocks 4..15, indirect
block 16 whose slot 0 points to block 17 (holding the final byte).
Blocks 18..23 free.  Used by the truncate_file scenario. -/
def stateIndirectFile : FS where
  sb := ⟨24, 6, 32, 29⟩
  bitmap := fun b => decide (b < 18)
  inodes := fun i =>
    if i = 1 then ⟨2, 0, 1, [3, 0, 0, 0, 0, 0, 0, 0, 0, 0, 0, 0, 0]⟩
    else if i = 2 then ⟨1, 49153, 1, [4, 5, 6, 7, 8, 9, 10, 11, 12, 13, 14, 15, 16]⟩
    else if i = 3 then ⟨1, 0, 1, List.replicate 13 0⟩
    else zeroInode
  data := fun b =>
    if b = 3 then
      putEnt (putEnt (putEnt (putEnt zeroBlock 0 1 2 [46]) 1 1 2 [46, 46]) 2 2 1 [103])
        3 3 1 [104]
    else if b = 16 then writeBytes zeroBlock 0 (le32 17)
    else zeroBlock

/-- A ten-byte host file pattern used by the scenario runs. -/
def hostPat : Nat → Nat := fun i => 65 + i % 26


/-! ### The fresh 64-block image and the states reached by creating one
root-level file on it (used to settle the name-length boundary claim) -/

/-- The root inode of the freshly formatted 262144-byte (64-block) image:
a directory of one data block, block 3. -/
def rootIno64 : Inode := ⟨2, 0, 1, 3 :: List.replicate 12 0⟩

/-- The root directory block of the fresh image: "." and ".." (both inode
1, rec_len 264) and zeros from offset 528 on. -/
def rootBlk64 : Block :=
  writeBytes (writeBytes zeroBlock 0 (dirEntryBytes 1 dirEntrySize 1 2 [46]))
    dirEntrySize (dirEntryBytes 1 dirEntrySize 2 2 [46, 46])

/-- The fresh image after create_file has allocated inode 2 and written
the new regular-file inode, just before the parent entry is inserted. -/
def s9 : FS :=
  (write_inode (allocate_inode (mkfs 262144)).1 2 ⟨1, 0, 1, List.replicate 13 0⟩).1

/-- The state produced by create_file(mkfs 262144, "/", name, REGULAR):
the entry for the new inode 2 sits at offset 528 of root block 3. -/
def S9f (name : List Nat) : FS :=
  (write_inode
    ((write_block s9 3
      (writeBytes rootBlk64 528 (dirEntryBytes 2 dirEntrySize name.length 1 name))).1)
    1 rootIno64).1


/-- The fresh image during create_file(…, DIRECTORY): inode 2 and dot
block 4 are allocated, the dot block and the new directory inode are
written, the parent entry not yet inserted. -/
def s6 : FS :=
  (write_inode
    ((write_block (allocate_block (allocate_inode (mkfs 262144)).1).1 4 (newDirBlock 2 1)).1)
    2 ⟨2, 0, 1, 4 :: List.replicate 12 0⟩).1

/-- The state produced by create_directory(mkfs 262144, "/" ++ name):
the entry for the new directory inode 2 sits at offset 528 of root
block 3, and block 4 holds the new directory's "." and ".." block. -/
def S6f (name : List Nat) : FS :=
  (write_inode
    ((write_block s6 3
      (writeBytes rootBlk64 528 (dirEntryBytes 2 dirEntrySize name.length 2 name))).1)
    1 rootIno64).1


/-- The fresh 64-block image after creating the regular file "/f"
(inode 2, links_count 1): the base state of the link-counting claim.
linkBase_eq below identifies it as the create_file result. -/
def linkBase : FS := S9f [102]

/-- The state produced by create_link(linkBase, "/f", "/" ++ name): the
new entry for inode 2 sits at offset 792 of root block 3 (written twice,
with identical bytes, by the loop's duplicate write), and inode 2 now has
links_count 2. -/
def S2f (name : List Nat) : FS :=
  (write_inode
    ((write_inode
      ((write_block
        ((write_block linkBase 3
          (writeBytes (linkBase.data 3) 792
            (dirEntryBytes 2 dirEntrySize name.length 1 name))).1) 3
        (writeBytes (linkBase.data 3) 792
          (dirEntryBytes 2 dirEntrySize name.length 1 name))).1)
      2 ⟨1, 0, 2, List.replicate 13 0⟩).1)
    1 rootIno64).1

end VFS

/-! # Theorems -/

namespace VFS

theorem updFun_same {α : Type} (f : Nat → α) (k : Nat) (v : α) :
    updFun f k v k = v := by simp [updFun]

theorem updFun_other {α : Type} (f : Nat → α) (k : Nat) (v : α)
    (i : Nat) (h : i ≠ k) : updFun f k v i = f i := by simp [updFun, h]

/-! ### State-component preservation lemmas for the allocator helpers -/

theorem allocate_block_inodes (s : FS) : (allocate_block s).1.inodes = s.inodes := by
  unfold allocate_block
  cases (List.range s.sb.blocks_count).find? (fun b => !s.bitmap b) <;> rfl

theorem free_block_inodes (s : FS) (b : Nat) : (free_block s b).inodes = s.inodes := by
  unfold free_block; split <;> rfl

theorem write_block_inodes (s : FS) (b : Nat) (blk : Block) :
    (write_block s b blk).1.inodes = s.inodes := by
  unfold write_block; split <;> rfl

/-- The append loop never writes the inode table. -/
theorem appendLoop_inodes (fuel : Nat) : ∀ s fino cb bl off,
    (appendLoop fuel s fino cb bl off).1.inodes = s.inodes := by
  induction fuel with
  | zero => intro s fino cb bl off; rfl
  | succ n ih =>
    intro s fino cb bl off
    unfold appendLoop
    dsimp only
    repeat' split
    all_goals simp [ih, allocate_block_inodes, free_block_inodes, write_block_inodes]

/-- The tail fill of append_to_file never writes the inode table. -/
theorem appendTailFill_inodes (s : FS) (fino : Inode) (cb pos bl0 : Nat)
    (r : FS × Nat × Nat) (h : appendTailFill s fino cb pos bl0 = some r) :
    r.1.inodes = s.inodes := by
  unfold appendTailFill at h
  dsimp only at h
  repeat' split at h
  all_goals simp_all [write_block_inodes]
  all_goals (cases h; simp [write_block_inodes])

set_option maxRecDepth 100000 in
/-- C1, counterexample.  stateAppendFail satisfies the section-3
invariants, has exactly one free block (block 7), and /f is an empty
regular file.  append_to_file(/f, 8192) needs two blocks: the first
allocation takes block 7, the second returns 0 and the call fails — but
block 7 is NOT freed again (it stays marked allocated and
free_blocks_count stays 0), refuting "every block allocated during that
call has been freed".  The on-disk inode itself is unchanged. -/
theorem append_leaks_block_on_alloc_failure :
    invariantsB stateAppendFail = true ∧
    stateAppendFail.bitmap 7 = false ∧
    stateAppendFail.sb.free_blocks_count = 1 ∧
    (append_to_file stateAppendFail [47, 102] 8192).2 = false ∧
    (append_to_file stateAppendFail [47, 102] 8192).1.bitmap 7 = true ∧
    (append_to_file stateAppendFail [47, 102] 8192).1.sb.free_blocks_count = 0 ∧
    (append_to_file stateAppendFail [47, 102] 8192).1.inodes 2 = stateAppendFail.inodes 2 := by
  refine ⟨by decide, by decide, by decide, by decide, by decide, by decide, by decide⟩

/-- C1, amended claim.  For every mounted state satisfying the section-3
invariants, whenever append_to_file fails — in particular when a block
allocation returned 0 partway through — the on-disk inode table, and so
the file's inode with its size and all thirteen block pointers, is
exactly what it was before the call (the inode is only written on the
success path).  What the original claim gets wrong is the rollback: the
blocks allocated by earlier iterations of the failed call are NOT freed
(see the counterexample), only the block allocated in the failing step
itself is. -/
theorem append_fail_inode_unchanged (s : FS) (p : List Nat) (n : Nat)
    (_hinv : invariantsB s = true)
    (h : (append_to_file s p n).2 = false) :
    (append_to_file s p n).1.inodes = s.inodes := by
  unfold append_to_file at *
  dsimp only at *
  repeat' split at h
  all_goals simp_all [appendLoop_inodes, allocate_block_inodes, free_block_inodes,
    write_block_inodes]
  all_goals exact appendTailFill_inodes _ _ _ _ _ _ (by assumption)

set_option maxRecDepth 100000 in
/-- C1, witness for append_fail_inode_unchanged: on stateAppendFail the
call append_to_file(/f, 8192) fails (its second allocation returns 0),
and the theorem yields that the inode table is unchanged. -/
theorem append_fail_inode_unchanged_witness :
    invariantsB stateAppendFail = true ∧
    (append_to_file stateAppendFail [47, 102] 8192).2 = false ∧
    (append_to_file stateAppendFail [47, 102] 8192).1.inodes = stateAppendFail.inodes :=
  ⟨by decide, by decide,
    append_fail_inode_unchanged stateAppendFail [47, 102] 8192 (by decide) (by decide)⟩

/-! ### Lemmas for truncate_file (claim C8) -/

theorem free_block_data (s : FS) (b : Nat) : (free_block s b).data = s.data := by
  unfold free_block; split <;> rfl

theorem free_block_blocks_count (s : FS) (b : Nat) :
    (free_block s b).sb.blocks_count = s.sb.blocks_count := by
  unfold free_block; split <;> rfl

theorem free_block_bitmap_false (s : FS) (b x : Nat) (h : s.bitmap x = false) :
    (free_block s b).bitmap x = false := by
  unfold free_block
  split
  · by_cases hbx : x = b
    · subst hbx; simp [updFun]
    · simpa [updFun, hbx] using h
  · exact h

theorem free_block_bitmap_self (s : FS) (b : Nat) (h : b < s.sb.blocks_count) :
    (free_block s b).bitmap b = false := by
  unfold free_block
  split
  · simp [updFun]
  · next hc =>
      rcases Bool.eq_false_or_eq_true (s.bitmap b) with hb | hb
      · exact absurd ⟨h, hb⟩ hc
      · exact hb

theorem write_block_bitmap (s : FS) (b : Nat) (blk : Block) :
    (write_block s b blk).1.bitmap = s.bitmap := by
  unfold write_block; split <;> rfl

theorem write_block_sb (s : FS) (b : Nat) (blk : Block) :
    (write_block s b blk).1.sb = s.sb := by
  unfold write_block; split <;> rfl

theorem write_block_data_self (s : FS) (b : Nat) (blk : Block)
    (h : b < s.sb.blocks_count) : (write_block s b blk).1.data b = blk := by
  unfold write_block
  simp [h, updFun]

theorem write_inode_bitmap (s : FS) (n : Nat) (ino : Inode) :
    (write_inode s n ino).1.bitmap = s.bitmap := by
  unfold write_inode; split <;> rfl

theorem write_inode_data (s : FS) (n : Nat) (ino : Inode) :
    (write_inode s n ino).1.data = s.data := by
  unfold write_inode; split <;> rfl

theorem write_inode_sb (s : FS) (n : Nat) (ino : Inode) :
    (write_inode s n ino).1.sb = s.sb := by
  unfold write_inode; split <;> rfl

theorem write_inode_self (s : FS) (n : Nat) (ino : Inode) (h0 : n ≠ 0)
    (hle : n ≤ s.sb.inodes_count) : (write_inode s n ino).1.inodes n = ino := by
  unfold write_inode
  rw [if_neg]
  · simp [updFun]
  · push_neg
    exact ⟨h0, hle⟩

theorem read32_writeBytes_le32_ne (buf : Block) (j i v : Nat) (h : j ≠ i) :
    read32 (writeBytes buf (4 * j) (le32 v)) (4 * i) = read32 buf (4 * i) := by
  unfold read32 writeBytes le32
  simp only [List.length_cons, List.length_nil]
  split_ifs <;> first | rfl | omega

theorem read32_writeBytes_le32_self (buf : Block) (i v : Nat) :
    read32 (writeBytes buf (4 * i) (le32 v)) (4 * i) = v % 2 ^ 32 := by
  unfold read32 writeBytes le32
  simp only [List.length_cons, List.length_nil]
  split_ifs with h1 h2 h3 h4 <;> try omega
  have e0 : 4 * i - 4 * i = 0 := by omega
  have e1 : 4 * i + 1 - 4 * i = 1 := by omega
  have e2 : 4 * i + 2 - 4 * i = 2 := by omega
  have e3 : 4 * i + 3 - 4 * i = 3 := by omega
  rw [e0, e1, e2, e3]
  simp only [List.getD_cons_succ, List.getD_cons_zero]
  omega



theorem truncIndFold_succ (s : FS) (ib : Block) (lo len : Nat) :
    truncIndFold s ib lo (len + 1) =
      truncIndFold (truncIndStep (s, ib) lo).1 (truncIndStep (s, ib) lo).2 (lo + 1) len := by
  unfold truncIndFold
  rw [List.range'_succ]
  simp only [List.foldl_cons]

theorem truncIndStep_pos (s : FS) (ib : Block) (lo : Nat) (hz : indirectSlot ib lo ≠ 0) :
    truncIndStep (s, ib) lo = (free_block s (indirectSlot ib lo), writeBytes ib (4 * lo) (le32 0)) := by
  simp [truncIndStep, hz]

theorem truncIndStep_neg (s : FS) (ib : Block) (lo : Nat) (hz : indirectSlot ib lo = 0) :
    truncIndStep (s, ib) lo = (s, ib) := by
  simp [truncIndStep, hz]

theorem truncIndFold_data (len : Nat) : ∀ lo s ib,
    (truncIndFold s ib lo len).1.data = s.data := by
  induction len with
  | zero => intro lo s ib; rfl
  | succ n ih =>
    intro lo s ib
    rw [truncIndFold_succ]
    by_cases hz : indirectSlot ib lo = 0
    · rw [truncIndStep_neg _ _ _ hz]; exact ih _ _ _
    · rw [truncIndStep_pos _ _ _ hz]
      rw [ih]
      exact free_block_data _ _

theorem truncIndFold_blocks_count (len : Nat) : ∀ lo s ib,
    (truncIndFold s ib lo len).1.sb.blocks_count = s.sb.blocks_count := by
  induction len with
  | zero => intro lo s ib; rfl
  | succ n ih =>
    intro lo s ib
    rw [truncIndFold_succ]
    by_cases hz : indirectSlot ib lo = 0
    · rw [truncIndStep_neg _ _ _ hz]; exact ih _ _ _
    · rw [truncIndStep_pos _ _ _ hz]
      rw [ih]
      exact free_block_blocks_count _ _

theorem truncIndFold_inodes (len : Nat) : ∀ lo s ib,
    (truncIndFold s ib lo len).1.inodes = s.inodes := by
  induction len with
  | zero => intro lo s ib; rfl
  | succ n ih =>
    intro lo s ib
    rw [truncIndFold_succ]
    by_cases hz : indirectSlot ib lo = 0
    · rw [truncIndStep_neg _ _ _ hz]; exact ih _ _ _
    · rw [truncIndStep_pos _ _ _ hz]
      rw [ih]
      exact free_block_inodes _ _

theorem truncIndFold_buf (len : Nat) : ∀ lo s ib i,
    read32 (truncIndFold s ib lo len).2 (4 * i) =
      if lo ≤ i ∧ i < lo + len then 0 else read32 ib (4 * i) := by
  induction len with
  | zero =>
    intro lo s ib i
    simp only [truncIndFold, List.range', List.foldl_nil]
    rw [if_neg (by omega)]
  | succ n ih =>
    intro lo s ib i
    rw [truncIndFold_succ]
    by_cases hz : indirectSlot ib lo = 0
    · rw [truncIndStep_neg _ _ _ hz]
      rw [ih]
      by_cases hi : i = lo
      · subst hi
        rw [if_neg (by omega), if_pos (by omega)]
        simpa [indirectSlot] using hz
      · by_cases hr : lo + 1 ≤ i ∧ i < lo + 1 + n
        · rw [if_pos hr, if_pos (by omega)]
        · rw [if_neg hr, if_neg (by omega)]
    · rw [truncIndStep_pos _ _ _ hz]
      rw [ih]
      by_cases hi : i = lo
      · subst hi
        rw [if_neg (by omega), if_pos (by omega)]
        simpa using read32_writeBytes_le32_self ib i 0
      · by_cases hr : lo + 1 ≤ i ∧ i < lo + 1 + n
        · rw [if_pos hr, if_pos (by omega)]
        · rw [if_neg hr, if_neg (by omega)]
          exact read32_writeBytes_le32_ne ib lo i 0 (by omega)

theorem truncIndFold_bitmap_false (len : Nat) : ∀ lo s ib x,
    s.bitmap x = false → (truncIndFold s ib lo len).1.bitmap x = false := by
  induction len with
  | zero => intro lo s ib x h; exact h
  | succ n ih =>
    intro lo s ib x h
    rw [truncIndFold_succ]
    by_cases hz : indirectSlot ib lo = 0
    · rw [truncIndStep_neg _ _ _ hz]; exact ih _ _ _ _ h
    · rw [truncIndStep_pos _ _ _ hz]
      exact ih _ _ _ _ (free_block_bitmap_false _ _ _ h)

theorem indirectSlot_writeZero (ib : Block) (lo j : Nat) :
    indirectSlot (writeBytes ib (4 * lo) (le32 0)) j =
      if j = lo then 0 else indirectSlot ib j := by
  by_cases hj : j = lo
  · subst hj
    simpa [indirectSlot] using read32_writeBytes_le32_self ib j 0
  · rw [if_neg hj]
    exact read32_writeBytes_le32_ne ib lo j 0 (by omega)

theorem truncIndFold_freed (len : Nat) : ∀ lo s ib,
    (∀ i, lo ≤ i → i < lo + len → indirectSlot ib i < s.sb.blocks_count) →
    ∀ i, lo ≤ i → i < lo + len → indirectSlot ib i ≠ 0 →
      (truncIndFold s ib lo len).1.bitmap (indirectSlot ib i) = false := by
  induction len with
  | zero => intro lo s ib hcnt i h1 h2; omega
  | succ n ih =>
    intro lo s ib hcnt i h1 h2 hnz
    rw [truncIndFold_succ]
    by_cases hi : i = lo
    · subst hi
      rw [truncIndStep_pos _ _ _ hnz]
      exact truncIndFold_bitmap_false n _ _ _ _
        (free_block_bitmap_self _ _ (hcnt i (le_refl i) h2))
    · by_cases hz : indirectSlot ib lo = 0
      · rw [truncIndStep_neg _ _ _ hz]
        exact ih (lo + 1) _ _
          (by intro j hj1 hj2; exact hcnt j (by omega) (by omega))
          i (by omega) (by omega) hnz
      · rw [truncIndStep_pos _ _ _ hz]
        have := ih (lo + 1) (free_block s (indirectSlot ib lo)) (writeBytes ib (4 * lo) (le32 0))
          (by
            intro j hj1 hj2
            rw [indirectSlot_writeZero, if_neg (by omega), free_block_blocks_count]
            exact hcnt j (by omega) (by omega))
          i (by omega) (by omega)
          (by rw [indirectSlot_writeZero, if_neg hi]; exact hnz)
        rw [indirectSlot_writeZero, if_neg hi] at this
        exact this



theorem blk_setBlk_ne (ino : Inode) (i v j : Nat) (h : j ≠ i) :
    (ino.setBlk i v).blk j = ino.blk j := by
  simp only [Inode.setBlk, Inode.blk, List.getD_eq_getElem?_getD,
    List.getElem?_set_ne (Ne.symm h)]

theorem blk_setBlk_zero (ino : Inode) (i : Nat) : (ino.setBlk i 0).blk i = 0 := by
  simp only [Inode.setBlk, Inode.blk, List.getD_eq_getElem?_getD]
  by_cases hlt : i < ino.blocks.length
  · rw [List.getElem?_set_self']
    rcases List.getElem?_eq_some_iff.mpr ⟨hlt, rfl⟩ with h
    rw [h]
    rfl
  · rw [List.set_eq_of_length_le (by omega), List.getElem?_eq_none (by omega)]
    rfl

theorem truncDirFold_succ (s : FS) (ino : Inode) (lo len : Nat) :
    truncDirFold s ino lo (len + 1) =
      truncDirFold (truncDirStep (s, ino) lo).1 (truncDirStep (s, ino) lo).2 (lo + 1) len := by
  unfold truncDirFold
  rw [List.range'_succ]
  simp only [List.foldl_cons]

theorem truncDirStep_pos (s : FS) (ino : Inode) (lo : Nat) (hz : ino.blk lo ≠ 0) :
    truncDirStep (s, ino) lo = (free_block s (ino.blk lo), ino.setBlk lo 0) := by
  simp [truncDirStep, hz]

theorem truncDirStep_neg (s : FS) (ino : Inode) (lo : Nat) (hz : ino.blk lo = 0) :
    truncDirStep (s, ino) lo = (s, ino) := by
  simp [truncDirStep, hz]

theorem truncDirFold_blk_lt (len : Nat) : ∀ lo s ino j, j < lo →
    (truncDirFold s ino lo len).2.blk j = ino.blk j := by
  induction len with
  | zero => intro lo s ino j hj; rfl
  | succ n ih =>
    intro lo s ino j hj
    rw [truncDirFold_succ]
    by_cases hz : ino.blk lo = 0
    · rw [truncDirStep_neg _ _ _ hz]; exact ih _ _ _ _ (by omega)
    · rw [truncDirStep_pos _ _ _ hz]
      rw [ih _ _ _ _ (by omega)]
      exact blk_setBlk_ne _ _ _ _ (by omega)

theorem truncDirFold_data (len : Nat) : ∀ lo s ino,
    (truncDirFold s ino lo len).1.data = s.data := by
  induction len with
  | zero => intro lo s ino; rfl
  | succ n ih =>
    intro lo s ino
    rw [truncDirFold_succ]
    by_cases hz : ino.blk lo = 0
    · rw [truncDirStep_neg _ _ _ hz]; exact ih _ _ _
    · rw [truncDirStep_pos _ _ _ hz]; rw [ih]; exact free_block_data _ _

theorem truncDirFold_inodes (len : Nat) : ∀ lo s ino,
    (truncDirFold s ino lo len).1.inodes = s.inodes := by
  induction len with
  | zero => intro lo s ino; rfl
  | succ n ih =>
    intro lo s ino
    rw [truncDirFold_succ]
    by_cases hz : ino.blk lo = 0
    · rw [truncDirStep_neg _ _ _ hz]; exact ih _ _ _
    · rw [truncDirStep_pos _ _ _ hz]; rw [ih]; exact free_block_inodes _ _

theorem truncDirFold_bitmap_false (len : Nat) : ∀ lo s ino x,
    s.bitmap x = false → (truncDirFold s ino lo len).1.bitmap x = false := by
  induction len with
  | zero => intro lo s ino x h; exact h
  | succ n ih =>
    intro lo s ino x h
    rw [truncDirFold_succ]
    by_cases hz : ino.blk lo = 0
    · rw [truncDirStep_neg _ _ _ hz]; exact ih _ _ _ _ h
    · rw [truncDirStep_pos _ _ _ hz]
      exact ih _ _ _ _ (free_block_bitmap_false _ _ _ h)

theorem truncDirFold_blk12 (len : Nat) : ∀ lo s ino, lo + len ≤ directBlocks →
    (truncDirFold s ino lo len).2.blk directBlocks = ino.blk directBlocks := by
  induction len with
  | zero => intro lo s ino h2; rfl
  | succ n ih =>
    intro lo s ino h2
    rw [truncDirFold_succ]
    by_cases hz : ino.blk lo = 0
    · rw [truncDirStep_neg _ _ _ hz]; exact ih _ _ _ (by omega)
    · rw [truncDirStep_pos _ _ _ hz]
      rw [ih _ _ _ (by omega)]
      exact blk_setBlk_ne _ _ _ _ (by omega)



theorem read_inode_some (s : FS) (f : Nat) (hf0 : f ≠ 0) (hfle : f ≤ s.sb.inodes_count) :
    read_inode s f = some (s.inodes f) := by
  unfold read_inode
  rw [if_neg]
  push_neg
  exact ⟨hf0, hfle⟩

theorem truncate_run (s : FS) (p : List Nat) (n f : Nat)
    (hf : find_inode_by_path s p = f) (hf0 : f ≠ 0) (hfle : f ≤ s.sb.inodes_count)
    (hmode : (s.inodes f).mode = 1)
    (hn : n ≤ (s.inodes f).size)
    (hold : directBlocks < ((s.inodes f).size + blockSize - 1) / blockSize)
    (hib : (s.inodes f).blk directBlocks ≠ 0)
    (hibl : (s.inodes f).blk directBlocks < s.sb.blocks_count)
    (hcase : ((s.inodes f).size - n + blockSize - 1) / blockSize <
      ((s.inodes f).size + blockSize - 1) / blockSize) :
    truncate_file s p n =
      (let fino := s.inodes f
       let new_blocks := (fino.size - n + blockSize - 1) / blockSize
       let cur_blocks := (fino.size + blockSize - 1) / blockSize
       let ib := fino.blk directBlocks
       let fb := truncIndFold s (s.data ib) (new_blocks - directBlocks)
         (cur_blocks - directBlocks - (new_blocks - directBlocks))
       let fi1 : FS × Inode :=
         if new_blocks ≤ directBlocks then
           (free_block fb.1 ib, fino.setBlk directBlocks 0)
         else ((write_block fb.1 ib fb.2).1, fino)
       let freed := truncDirFold fi1.1 fi1.2 new_blocks
         (min cur_blocks directBlocks - new_blocks)
       ((write_inode freed.1 f { freed.2 with size := fino.size - n }).1, true)) := by
  unfold truncate_file
  dsimp only
  rw [hf, if_neg hf0]
  simp only [read_inode_some s f hf0 hfle]
  rw [if_neg (by simp [hmode]), if_neg (by omega), if_pos hcase, if_pos ⟨hold, hib⟩]
  simp only [show read_block s ((s.inodes f).blk directBlocks) = some (s.data ((s.inodes f).blk directBlocks)) by
    unfold read_block; rw [if_pos hibl]]



theorem truncate_run_nofree (s : FS) (p : List Nat) (n f : Nat)
    (hf : find_inode_by_path s p = f) (hf0 : f ≠ 0) (hfle : f ≤ s.sb.inodes_count)
    (hmode : (s.inodes f).mode = 1)
    (hn : n ≤ (s.inodes f).size)
    (hcase : ¬ ((s.inodes f).size - n + blockSize - 1) / blockSize <
      ((s.inodes f).size + blockSize - 1) / blockSize) :
    truncate_file s p n =
      ((write_inode s f { s.inodes f with size := (s.inodes f).size - n }).1, true) := by
  unfold truncate_file
  dsimp only
  rw [hf, if_neg hf0]
  simp only [read_inode_some s f hf0 hfle]
  rw [if_neg (by simp [hmode]), if_neg (by omega), if_neg hcase]

theorem free_block_inodes_count (s : FS) (b : Nat) :
    (free_block s b).sb.inodes_count = s.sb.inodes_count := by
  unfold free_block; split <;> rfl

theorem truncIndFold_inodes_count (len : Nat) : ∀ lo s ib,
    (truncIndFold s ib lo len).1.sb.inodes_count = s.sb.inodes_count := by
  induction len with
  | zero => intro lo s ib; rfl
  | succ n ih =>
    intro lo s ib
    rw [truncIndFold_succ]
    by_cases hz : indirectSlot ib lo = 0
    · rw [truncIndStep_neg _ _ _ hz]; exact ih _ _ _
    · rw [truncIndStep_pos _ _ _ hz]; rw [ih]; exact free_block_inodes_count _ _

theorem truncDirFold_inodes_count (len : Nat) : ∀ lo s ino,
    (truncDirFold s ino lo len).1.sb.inodes_count = s.sb.inodes_count := by
  induction len with
  | zero => intro lo s ino; rfl
  | succ n ih =>
    intro lo s ino
    rw [truncDirFold_succ]
    by_cases hz : ino.blk lo = 0
    · rw [truncDirStep_neg _ _ _ hz]; exact ih _ _ _
    · rw [truncDirStep_pos _ _ _ hz]; rw [ih]; exact free_block_inodes_count _ _

theorem blk_size_update (ino : Inode) (z j : Nat) :
    ({ ino with size := z } : Inode).blk j = ino.blk j := rfl

set_option maxRecDepth 100000 in
/-- C8.  For every regular file reachable at path p that occupies more
than 12 blocks (so it has a non-zero indirect pointer), truncating n
bytes (n at most the size) succeeds, sets the stored size to size - n,
frees exactly the indirect slots in [new_blocks - 12, old_blocks - 12)
(Nat subtraction realizes the max(0, ...)), frees the indirect block
itself and zeroes blocks[12] exactly when new_blocks <= 12, writes the
zeroed slots back (leaving slots outside the range unchanged) when
new_blocks > 12, and leaves the direct pointers below new_blocks intact.
The hypotheses ask only that the named inode and the referenced blocks
lie inside the image, which the section-3 invariants guarantee. -/
theorem truncate_file_indirect_spec (s : FS) (p : List Nat) (n f : Nat)
    (hf : find_inode_by_path s p = f) (hf0 : f ≠ 0) (hfle : f ≤ s.sb.inodes_count)
    (hmode : (s.inodes f).mode = 1)
    (hn : n ≤ (s.inodes f).size)
    (hold : directBlocks < ((s.inodes f).size + blockSize - 1) / blockSize)
    (hib : (s.inodes f).blk directBlocks ≠ 0)
    (hibl : (s.inodes f).blk directBlocks < s.sb.blocks_count)
    (hslots : ∀ i, i < ((s.inodes f).size + blockSize - 1) / blockSize - directBlocks →
      indirectSlot (s.data ((s.inodes f).blk directBlocks)) i < s.sb.blocks_count) :
    (truncate_file s p n).2 = true ∧
    ((truncate_file s p n).1.inodes f).size = (s.inodes f).size - n ∧
    (∀ i, ((s.inodes f).size - n + blockSize - 1) / blockSize - directBlocks ≤ i →
      i < ((s.inodes f).size + blockSize - 1) / blockSize - directBlocks →
      indirectSlot (s.data ((s.inodes f).blk directBlocks)) i ≠ 0 →
      (truncate_file s p n).1.bitmap
        (indirectSlot (s.data ((s.inodes f).blk directBlocks)) i) = false) ∧
    (((truncate_file s p n).1.inodes f).blk directBlocks = 0 ↔
      ((s.inodes f).size - n + blockSize - 1) / blockSize ≤ directBlocks) ∧
    (((s.inodes f).size - n + blockSize - 1) / blockSize ≤ directBlocks →
      (truncate_file s p n).1.bitmap ((s.inodes f).blk directBlocks) = false) ∧
    (directBlocks < ((s.inodes f).size - n + blockSize - 1) / blockSize →
      ∀ i, indirectSlot ((truncate_file s p n).1.data ((s.inodes f).blk directBlocks)) i =
        if ((s.inodes f).size - n + blockSize - 1) / blockSize - directBlocks ≤ i ∧
            i < ((s.inodes f).size + blockSize - 1) / blockSize - directBlocks then 0
        else indirectSlot (s.data ((s.inodes f).blk directBlocks)) i) ∧
    (∀ j, j < ((s.inodes f).size - n + blockSize - 1) / blockSize → j < directBlocks →
      ((truncate_file s p n).1.inodes f).blk j = (s.inodes f).blk j) := by
  set fino := s.inodes f with hfino
  set nb := (fino.size - n + blockSize - 1) / blockSize with hnb
  set cb := (fino.size + blockSize - 1) / blockSize with hcb
  set ib := fino.blk directBlocks with hibdef
  by_cases hcase : nb < cb
  · have hrun := truncate_run s p n f hf hf0 hfle hmode hn hold hib hibl hcase
    rw [hrun]
    dsimp only
    rw [← hfino, ← hnb, ← hcb, ← hibdef]
    set lo := nb - directBlocks with hlo
    set len := cb - directBlocks - lo with hlen
    have hlolen : lo + len = cb - directBlocks := by omega
    set fb := truncIndFold s (s.data ib) lo len with hfb
    have hfbc : fb.1.sb.blocks_count = s.sb.blocks_count := truncIndFold_blocks_count _ _ _ _
    have hfbi : fb.1.sb.inodes_count = s.sb.inodes_count := truncIndFold_inodes_count _ _ _ _
    have hfreed : ∀ i, lo ≤ i → i < cb - directBlocks →
        indirectSlot (s.data ib) i ≠ 0 → fb.1.bitmap (indirectSlot (s.data ib) i) = false := by
      intro i h1 h2 h3
      exact truncIndFold_freed len lo s (s.data ib)
        (fun j hj1 hj2 => hslots j (by omega)) i h1 (by omega) h3
    by_cases h12 : nb ≤ directBlocks
    · rw [if_pos h12]
      dsimp only
      set fi1s := free_block fb.1 ib with hfi1s
      set dlen := min cb directBlocks - nb with hdlen
      set dfl := truncDirFold fi1s (fino.setBlk directBlocks 0) nb dlen with hdfl
      have hdlen12 : nb + dlen ≤ directBlocks := by
        have : min cb directBlocks = directBlocks := Nat.min_eq_right (le_of_lt hold)
        omega
      have hWcnt : dfl.1.sb.inodes_count = s.sb.inodes_count := by
        rw [hdfl, truncDirFold_inodes_count, hfi1s, free_block_inodes_count, hfbi]
      have hself : (write_inode dfl.1 f { dfl.2 with size := fino.size - n }).1.inodes f =
          { dfl.2 with size := fino.size - n } :=
        write_inode_self _ _ _ hf0 (by rw [hWcnt]; exact hfle)
      have hbm : ∀ x, fb.1.bitmap x = false →
          (write_inode dfl.1 f { dfl.2 with size := fino.size - n }).1.bitmap x = false := by
        intro x hx
        rw [write_inode_bitmap, hdfl]
        exact truncDirFold_bitmap_false _ _ _ _ _ (free_block_bitmap_false _ _ _ hx)
      refine ⟨rfl, ?_, ?_, ?_, ?_, ?_, ?_⟩
      · rw [hself]
      · intro i h1 h2 h3
        exact hbm _ (hfreed i h1 h2 h3)
      · rw [hself]
        constructor
        · intro _; exact h12
        · intro _
          rw [blk_size_update, hdfl, truncDirFold_blk12 _ _ _ _ hdlen12, blk_setBlk_zero]
      · intro _
        rw [write_inode_bitmap, hdfl]
        exact truncDirFold_bitmap_false _ _ _ _ _
          (by rw [hfi1s]; exact free_block_bitmap_self _ _ (by rw [hfbc]; exact hibl))
      · intro hcon; omega
      · intro j hj1 hj2
        rw [hself, blk_size_update, hdfl, truncDirFold_blk_lt _ _ _ _ _ hj1,
          blk_setBlk_ne _ _ _ _ (by omega)]
    · rw [if_neg h12]
      dsimp only
      have hdlen0 : min cb directBlocks - nb = 0 := by
        have : min cb directBlocks = directBlocks := Nat.min_eq_right (le_of_lt hold)
        omega
      rw [hdlen0]
      have hdid : ∀ q ino2, truncDirFold q ino2 nb 0 = (q, ino2) := fun q ino2 => rfl
      rw [hdid]
      set W := (write_block fb.1 ib fb.2).1 with hW
      have hWcnt : W.sb.inodes_count = s.sb.inodes_count := by
        rw [hW, write_block_sb, hfbi]
      have hself : (write_inode W f { fino with size := fino.size - n }).1.inodes f =
          { fino with size := fino.size - n } :=
        write_inode_self _ _ _ hf0 (by rw [hWcnt]; exact hfle)
      refine ⟨rfl, ?_, ?_, ?_, ?_, ?_, ?_⟩
      · rw [hself]
      · intro i h1 h2 h3
        rw [write_inode_bitmap, hW, write_block_bitmap]
        exact hfreed i h1 h2 h3
      · rw [hself, blk_size_update, ← hibdef]
        constructor
        · intro h0; exact absurd h0 hib
        · intro hc; omega
      · intro hc; omega
      · intro _ i
        rw [write_inode_data, hW, write_block_data_self _ _ _ (by rw [hfbc]; exact hibl)]
        have := truncIndFold_buf len lo s (s.data ib) i
        rw [← hfb] at this
        unfold indirectSlot
        rw [this]
        by_cases hr : lo ≤ i ∧ i < lo + len
        · rw [if_pos hr, if_pos (by omega)]
        · rw [if_neg hr, if_neg (by omega)]
      · intro j hj1 hj2
        rw [hself, blk_size_update]
  · have hrun := truncate_run_nofree s p n f hf hf0 hfle hmode hn hcase
    rw [hrun]
    have hself : (write_inode s f { fino with size := fino.size - n }).1.inodes f =
        { fino with size := fino.size - n } := write_inode_self _ _ _ hf0 hfle
    refine ⟨rfl, ?_, ?_, ?_, ?_, ?_, ?_⟩
    · rw [hself]
    · intro i h1 h2 h3
      omega
    · rw [hself, blk_size_update, ← hibdef]
      constructor
      · intro h0; exact absurd h0 hib
      · intro hc; omega
    · intro hc; omega
    · intro _ i
      rw [write_inode_data]
      rw [if_neg (by omega)]
    · intro j hj1 hj2
      rw [hself, blk_size_update]


set_option maxRecDepth 100000 in
/-- C8, witness: the claim's own scenario.  stateIndirectFile holds /g of
12 * 4096 + 1 = 49153 bytes (13 data blocks, indirect block 16, 13th
data block 17).  truncate_file(/g, 1) succeeds, the new size is 49152,
blocks[12] becomes 0, block 17 (the 13th data block) and block 16 (the
indirect block) are freed, and the 12 direct blocks are intact. -/
theorem truncate_file_indirect_spec_witness :
    (truncate_file stateIndirectFile [47, 103] 1).2 = true ∧
    ((truncate_file stateIndirectFile [47, 103] 1).1.inodes 2).size = 49152 ∧
    ((truncate_file stateIndirectFile [47, 103] 1).1.inodes 2).blk directBlocks = 0 ∧
    (truncate_file stateIndirectFile [47, 103] 1).1.bitmap 16 = false ∧
    (truncate_file stateIndirectFile [47, 103] 1).1.bitmap 17 = false ∧
    (∀ j, j < 12 →
      ((truncate_file stateIndirectFile [47, 103] 1).1.inodes 2).blk j =
        (stateIndirectFile.inodes 2).blk j) := by
  have h := truncate_file_indirect_spec stateIndirectFile [47, 103] 1 2 (by decide) (by decide)
    (by decide) (by decide) (by decide) (by decide) (by decide) (by decide) (by decide)
  obtain ⟨h1, h2, h3, h4, h5, _h6, h7⟩ := h
  refine ⟨h1, ?_, ?_, ?_, ?_, ?_⟩
  · rw [h2]; decide
  · exact h4.mpr (by decide)
  · have e : (stateIndirectFile.inodes 2).blk directBlocks = 16 := by decide
    rw [← e]
    exact h5 (by decide)
  · have e : indirectSlot (stateIndirectFile.data ((stateIndirectFile.inodes 2).blk directBlocks)) 0 = 17 := by decide
    rw [← e]
    exact h3 0 (by decide) (by decide) (by decide)
  · intro j hj
    have hnb : ((stateIndirectFile.inodes 2).size - 1 + blockSize - 1) / blockSize = 12 := by
      decide
    have hd : directBlocks = 12 := rfl
    exact h7 j (by omega) (by omega)

set_option maxRecDepth 100000 in
/-- C2, counterexample.  From the freshly formatted image (which
satisfies the section-3 invariants), create_directory("/a") succeeds and
creates inode 2 with links_count = 1 — but two directory entries in the
tree carry inode field 2: the entry "a" in the root block and the "."
entry of the new directory itself.  The claimed equality between
links_count and the number of entries referencing the inode therefore
fails for every directory (only the count that excludes "." and ".."
matches). -/
theorem mkdir_breaks_link_count_equality :
    invariantsB (mkfs 262144) = true ∧
    (create_directory (mkfs 262144) [47, 97]).2 = true ∧
    ((create_directory (mkfs 262144) [47, 97]).1.inodes 2).links_count = 1 ∧
    countTree (create_directory (mkfs 262144) [47, 97]).1 2 true = 2 := by
  refine ⟨by decide, by decide, by decide, by decide⟩

set_option maxRecDepth 100000 in
/-- C3, failing input.  In stateTombstoneDir (which satisfies the
section-3 invariants) the directory /d holds ".", "..", a tombstoned slot
(inode = 0 at offset 528) and after it a live entry "c" referencing inode
3 (offset 792).  remove_directory("/d") must reject per the claim, but it
returns success: its emptiness scan stops at the tombstone and never sees
the live entry.  The removal orphans inode 3: its links_count stays 1
while no directory entry references it any more. -/
theorem rmdir_misses_entry_after_tombstone :
    invariantsB stateTombstoneDir = true ∧
    entInode (stateTombstoneDir.data 4) 528 = 0 ∧
    entInode (stateTombstoneDir.data 4) 792 = 3 ∧
    entRecLen (stateTombstoneDir.data 4) 528 = 264 ∧
    (remove_directory stateTombstoneDir [47, 100]).2 = true ∧
    ((remove_directory stateTombstoneDir [47, 100]).1.inodes 3).links_count = 1 ∧
    countTree (remove_directory stateTombstoneDir [47, 100]).1 3 false = 0 := by
  refine ⟨by decide, by decide, by decide, by decide, by decide, by decide, by decide⟩

set_option maxRecDepth 100000 in
/-- C4, failing input.  Running the claim's own scenario from a fresh
image: copy_from_system of a 10-byte host file to /x, link /x /y,
rm /x.  The entry for y (inode field 2, name byte 'y' = 121 at offset
792 of the root block) is still on disk and its inode still has
links_count 1, yet ls("/") returns the empty list: the scan breaks at the
tombstone that rm left at offset 528 instead of skipping it, so the
result contains neither x nor y — refuting "the result of ls contains
y". -/
theorem ls_misses_link_after_tombstone :
    (copy_from_system (mkfs 262144) hostPat 10 [47, 120]).2 = true ∧
    (let s1 := (copy_from_system (mkfs 262144) hostPat 10 [47, 120]).1
     (create_link s1 [47, 120] [47, 121]).2 = true ∧
     (let s2 := (create_link s1 [47, 120] [47, 121]).1
      (remove_file s2 [47, 120]).2 = true ∧
      (let s3 := (remove_file s2 [47, 120]).1
       entInode (s3.data 3) 528 = 0 ∧
       entInode (s3.data 3) 792 = 2 ∧
       (s3.data 3) 800 = 121 ∧
       (s3.inodes 2).links_count = 1 ∧
       list_directory s3 [47] = []))) := by
  refine ⟨by decide, by decide, by decide, by decide, by decide, by decide, by decide,
    by decide⟩

set_option maxRecDepth 1000000 in
set_option maxHeartbeats 4000000 in
/-- C5, failing input.  stateBigFile holds the regular file /f at exactly
the capacity limit: size (12 + 1024) * 4096, using all 12 direct
pointers, the indirect block and all 1024 indirect slots.  Appending one
more byte must fail per the claim, but append_to_file has no capacity
check: it allocates block 1041, computes indirect slot index 1024,
writes the pointer beyond the 1024 persisted slots (out of bounds in the
C++), sets size to 4243457 and returns success; the allocated block is
referenced by nothing (the inode's 13 pointers are unchanged and every
indirect slot keeps its old value). -/
theorem append_has_no_capacity_check :
    (stateBigFile.inodes 2).size = maxFileBlocks * blockSize ∧
    (append_to_file stateBigFile [47, 102] 1).2 = true ∧
    ((append_to_file stateBigFile [47, 102] 1).1.inodes 2).size = maxFileBlocks * blockSize + 1 ∧
    (append_to_file stateBigFile [47, 102] 1).1.bitmap 1041 = true ∧
    ((append_to_file stateBigFile [47, 102] 1).1.inodes 2).blocks = (stateBigFile.inodes 2).blocks ∧
    indirectSlot ((append_to_file stateBigFile [47, 102] 1).1.data 16) 1023 = 1040 := by
  refine ⟨by decide, by decide, by decide, by decide, by decide, by decide⟩

set_option maxRecDepth 100000 in
/-- C7, failing input.  A host file of 2^32 + 10 bytes: copy_from_system
truncates its size to the uint32_t value 10, copies ten bytes, stores
size 10 and reports success; copy_to_system then succeeds and writes a
10-byte host file.  Both operations succeed yet the exported file is not
byte-wise equal to the imported one (the lengths differ), and the stored
size does not equal the host file size — refuting the round-trip claim.
(A host file of more than (12 + 1024) * 4096 bytes similarly round-trips
to a truncated copy because the indirect fill loop silently stops after
1024 slots.) -/
theorem copy_roundtrip_truncates_oversized_host :
    (copy_from_system (mkfs 262144) hostPat (2 ^ 32 + 10) [47, 120]).2 = true ∧
    (let s1 := (copy_from_system (mkfs 262144) hostPat (2 ^ 32 + 10) [47, 120]).1
     (s1.inodes 2).size = 10 ∧
     (s1.inodes 2).size ≠ 2 ^ 32 + 10 ∧
     (copy_to_system s1 [47, 120]).2 = true ∧
     (copy_to_system s1 [47, 120]).1.2 = 10 ∧
     (copy_to_system s1 [47, 120]).1.2 ≠ 2 ^ 32 + 10) := by
  refine ⟨by decide, by decide, by decide, by decide, by decide, by decide⟩

set_option maxRecDepth 100000 in
set_option maxHeartbeats 4000000 in
/-- C6, counterexample.  stateFullRoot satisfies the section-3 invariants
and its root block is completely full (sixteen live entries), so
create_directory("/z") must allocate a second root directory block to
hold the entry.  mkdir succeeds (free blocks 4 → 2), rmdir succeeds —
but the new root block (block 5) is tombstoned, not freed: afterwards
free_blocks_count is 3, not the original 4, and the root inode still
references block 5.  free_inodes_count is restored. -/
theorem mkdir_rmdir_leaks_parent_block :
    (invariantsB stateFullRoot &&
     (stateFullRoot.sb.free_blocks_count == 4) &&
     (stateFullRoot.sb.free_inodes_count == 17) &&
     (let r1 := create_directory stateFullRoot [47, 122]
      let r2 := remove_directory r1.1 [47, 122]
      r1.2 && ((r1.1.inodes 1).blk 1 == 5) && r2.2 &&
        (r2.1.sb.free_blocks_count == 3) && (r2.1.sb.free_inodes_count == 17) &&
        r2.1.bitmap 5)) = true := by decide

set_option maxRecDepth 100000 in
/-- C9, counterexample.  A 256-byte name is NOT rejected by create_file:
the name_len field is a uint8_t, so 256 is stored as 0; the call returns
the fresh inode 2 (not 0) and the parent root block has gained an entry
(inode field 2, name_len 0) at offset 528 — refuting "create_file
returns 0 and the parent directory is unchanged".  A subsequent path
resolution of the name finds nothing. -/
theorem create_file_accepts_256_byte_name :
    (create_file (mkfs 262144) [47] (List.replicate 256 97) 1).2 = 2 ∧
    (let s1 := (create_file (mkfs 262144) [47] (List.replicate 256 97) 1).1
     entInode (s1.data 3) 528 = 2 ∧
     entNameLen (s1.data 3) 528 = 0 ∧
     find_inode_by_path s1 (47 :: List.replicate 256 97) = 0) := by
  refine ⟨by decide, by decide, by decide, by decide⟩

end VFS

/-! ### Lemmas for remove_file and free_inode (claim C10) -/

namespace VFS


theorem freeSome_inodes (s : FS) (b : Nat) : (freeSome s b).inodes = s.inodes := by
  unfold freeSome; split
  · exact free_block_inodes _ _
  · rfl

theorem freeSome_inodes_count (s : FS) (b : Nat) :
    (freeSome s b).sb.inodes_count = s.sb.inodes_count := by
  unfold freeSome; split
  · exact free_block_inodes_count _ _
  · rfl

theorem freeSome_blocks_count (s : FS) (b : Nat) :
    (freeSome s b).sb.blocks_count = s.sb.blocks_count := by
  unfold freeSome; split
  · exact free_block_blocks_count _ _
  · rfl

theorem freeSome_bitmap_false (s : FS) (b x : Nat) (h : s.bitmap x = false) :
    (freeSome s b).bitmap x = false := by
  unfold freeSome; split
  · exact free_block_bitmap_false _ _ _ h
  · exact h

theorem freeSome_self (s : FS) (b : Nat) (hb : b ≠ 0) (hlt : b < s.sb.blocks_count) :
    (freeSome s b).bitmap b = false := by
  unfold freeSome
  rw [if_pos hb]
  exact free_block_bitmap_self _ _ hlt

theorem foldl_freeSome_inodes (v : Nat → Nat) (l : List Nat) : ∀ s,
    (l.foldl (fun t i => freeSome t (v i)) s).inodes = s.inodes := by
  induction l with
  | nil => intro s; rfl
  | cons b bs ih =>
    intro s
    simp only [List.foldl_cons]
    rw [ih, freeSome_inodes]

theorem foldl_freeSome_inodes_count (v : Nat → Nat) (l : List Nat) : ∀ s,
    (l.foldl (fun t i => freeSome t (v i)) s).sb.inodes_count = s.sb.inodes_count := by
  induction l with
  | nil => intro s; rfl
  | cons b bs ih =>
    intro s
    simp only [List.foldl_cons]
    rw [ih, freeSome_inodes_count]

theorem foldl_freeSome_blocks_count (v : Nat → Nat) (l : List Nat) : ∀ s,
    (l.foldl (fun t i => freeSome t (v i)) s).sb.blocks_count = s.sb.blocks_count := by
  induction l with
  | nil => intro s; rfl
  | cons b bs ih =>
    intro s
    simp only [List.foldl_cons]
    rw [ih, freeSome_blocks_count]

theorem foldl_freeSome_bitmap_false (v : Nat → Nat) (l : List Nat) : ∀ s x,
    s.bitmap x = false → (l.foldl (fun t i => freeSome t (v i)) s).bitmap x = false := by
  induction l with
  | nil => intro s x h; exact h
  | cons b bs ih =>
    intro s x h
    simp only [List.foldl_cons]
    exact ih _ _ (freeSome_bitmap_false _ _ _ h)

theorem foldl_freeSome_freed (v : Nat → Nat) (l : List Nat) : ∀ s i, i ∈ l → v i ≠ 0 →
    v i < s.sb.blocks_count → (l.foldl (fun t i => freeSome t (v i)) s).bitmap (v i) = false := by
  induction l with
  | nil => intro s i h; cases h
  | cons b bs ih =>
    intro s i hmem hnz hlt
    simp only [List.foldl_cons]
    rcases List.mem_cons.mp hmem with hb | hbs
    · subst hb
      exact foldl_freeSome_bitmap_false _ _ _ _ (freeSome_self _ _ hnz hlt)
    · exact ih _ _ hbs hnz (by rw [freeSome_blocks_count]; exact hlt)

theorem tombstoneStep_inodes (target : Nat) (t : FS) (b : Nat) :
    (tombstoneStep target t b).inodes = t.inodes := by
  unfold tombstoneStep
  repeat' split
  all_goals simp [write_block_inodes]

theorem tombstoneStep_sb (target : Nat) (t : FS) (b : Nat) :
    (tombstoneStep target t b).sb = t.sb := by
  unfold tombstoneStep
  repeat' split
  all_goals simp [write_block_sb]

theorem tombstoneStep_bitmap (target : Nat) (t : FS) (b : Nat) :
    (tombstoneStep target t b).bitmap = t.bitmap := by
  unfold tombstoneStep
  repeat' split
  all_goals simp [write_block_bitmap]

theorem tombstoneBlocks_inodes (blks : List Nat) (target : Nat) : ∀ s,
    (tombstoneBlocks s blks target).inodes = s.inodes := by
  induction blks with
  | nil => intro s; rfl
  | cons b bs ih =>
    intro s
    unfold tombstoneBlocks at *
    simp only [List.foldl_cons]
    rw [ih, tombstoneStep_inodes]

theorem tombstoneBlocks_sb (blks : List Nat) (target : Nat) : ∀ s,
    (tombstoneBlocks s blks target).sb = s.sb := by
  induction blks with
  | nil => intro s; rfl
  | cons b bs ih =>
    intro s
    unfold tombstoneBlocks at *
    simp only [List.foldl_cons]
    rw [ih, tombstoneStep_sb]

theorem tombstoneBlocks_bitmap (blks : List Nat) (target : Nat) : ∀ s,
    (tombstoneBlocks s blks target).bitmap = s.bitmap := by
  induction blks with
  | nil => intro s; rfl
  | cons b bs ih =>
    intro s
    unfold tombstoneBlocks at *
    simp only [List.foldl_cons]
    rw [ih, tombstoneStep_bitmap]



theorem free_block_free_inodes_count (s : FS) (b : Nat) :
    (free_block s b).sb.free_inodes_count = s.sb.free_inodes_count := by
  unfold free_block; split <;> rfl

theorem freeSome_free_inodes_count (s : FS) (b : Nat) :
    (freeSome s b).sb.free_inodes_count = s.sb.free_inodes_count := by
  unfold freeSome; split
  · exact free_block_free_inodes_count _ _
  · rfl

theorem foldl_freeSome_free_inodes_count (v : Nat → Nat) (l : List Nat) : ∀ s,
    (l.foldl (fun t i => freeSome t (v i)) s).sb.free_inodes_count =
      s.sb.free_inodes_count := by
  induction l with
  | nil => intro s; rfl
  | cons b bs ih =>
    intro s
    simp only [List.foldl_cons]
    rw [ih, freeSome_free_inodes_count]

theorem write_inode_other (s : FS) (n : Nat) (ino : Inode) (j : Nat) (hj : j ≠ n) :
    (write_inode s n ino).1.inodes j = s.inodes j := by
  unfold write_inode
  split
  · rfl
  · simp [updFun, hj]

theorem free_inode_effects (s : FS) (k : Nat) (hk0 : k ≠ 0) (hkle : k ≤ s.sb.inodes_count) :
    (free_inode s k).inodes k = zeroInode ∧
    (∀ j, j ≠ k → (free_inode s k).inodes j = s.inodes j) ∧
    (free_inode s k).sb.free_inodes_count = s.sb.free_inodes_count + 1 ∧
    (∀ i, i < directBlocks + 1 → (s.inodes k).blk i ≠ 0 →
      (s.inodes k).blk i < s.sb.blocks_count →
      (free_inode s k).bitmap ((s.inodes k).blk i) = false) := by
  unfold free_inode
  rw [if_neg (by push_neg; exact ⟨hk0, hkle⟩)]
  dsimp only
  set ino := s.inodes k with hino
  set s1 := (List.range directBlocks).foldl (fun t i => freeSome t (ino.blk i)) s with hs1
  have hs1i : s1.inodes = s.inodes := foldl_freeSome_inodes _ _ _
  have hs1ic : s1.sb.inodes_count = s.sb.inodes_count := foldl_freeSome_inodes_count _ _ _
  have hs1bc : s1.sb.blocks_count = s.sb.blocks_count := foldl_freeSome_blocks_count _ _ _
  have hs1fc : s1.sb.free_inodes_count = s.sb.free_inodes_count :=
    foldl_freeSome_free_inodes_count _ _ _
  set s2 := (if ino.blk directBlocks ≠ 0 then
      free_block (match read_block s1 (ino.blk directBlocks) with
        | some blk => (List.range (blockSize / 4)).foldl
            (fun t i => freeSome t (indirectSlot blk i)) s1
        | none => s1) (ino.blk directBlocks)
    else s1) with hs2
  have hs2i : s2.inodes = s.inodes := by
    rw [hs2]
    split
    · rw [free_block_inodes]
      split
      · rw [foldl_freeSome_inodes, hs1i]
      · exact hs1i
    · exact hs1i
  have hs2ic : s2.sb.inodes_count = s.sb.inodes_count := by
    rw [hs2]
    split
    · rw [free_block_inodes_count]
      split
      · rw [foldl_freeSome_inodes_count, hs1ic]
      · exact hs1ic
    · exact hs1ic
  have hs2fc : s2.sb.free_inodes_count = s.sb.free_inodes_count := by
    rw [hs2]
    split
    · rw [free_block_free_inodes_count]
      split
      · rw [foldl_freeSome_free_inodes_count, hs1fc]
      · exact hs1fc
    · exact hs1fc
  have hs2false : ∀ x, s1.bitmap x = false → s2.bitmap x = false := by
    intro x hx
    rw [hs2]
    split
    · apply free_block_bitmap_false
      split
      · exact foldl_freeSome_bitmap_false _ _ _ _ hx
      · exact hx
    · exact hx
  refine ⟨?_, ?_, ?_, ?_⟩
  · rw [write_inode_self s2 k zeroInode hk0 (by rw [hs2ic]; exact hkle)]
  · intro j hj
    rw [write_inode_other s2 k zeroInode j hj, hs2i]
  · rw [write_inode_sb, hs2fc]
  · intro i hi hnz hlt
    rw [write_inode_bitmap]
    by_cases h12 : i < directBlocks
    · apply hs2false
      exact foldl_freeSome_freed ino.blk (List.range directBlocks) s i
        (List.mem_range.mpr h12) hnz hlt
    · have hieq : i = directBlocks := by omega
      subst hieq
      rw [hs2, if_pos hnz]
      apply free_block_bitmap_self
      split
      · rw [foldl_freeSome_blocks_count, hs1bc]
        exact hlt
      · rw [hs1bc]
        exact hlt



/-- C10.  remove_file performs no file-type check: the theorem has no
hypothesis at all on the mode of the resolved inode or on its directory
contents, so it applies to every mode including DIRECTORY and to
non-empty directories.  Whenever the path and its parent resolve,
remove_file succeeds, tombstones the matching parent entries, decrements
links_count, and when links_count reaches zero zeroes the inode,
increments free_inodes_count and clears the bitmap bits of all its
non-zero block pointers — while every other inode (in particular the
children of a removed directory) is left untouched.  The links_count >= 1
hypothesis marks where the model's Nat subtraction agrees with the
uint32_t decrement. -/
theorem remove_file_no_type_check (s : FS) (p : List Nat) (k q : Nat)
    (hf : find_inode_by_path s p = k) (hk0 : k ≠ 0) (hkle : k ≤ s.sb.inodes_count)
    (hq : find_inode_by_path s (splitParent (get_absolute_path p)).1 = q)
    (hq0 : q ≠ 0) (hqle : q ≤ s.sb.inodes_count)
    (_hl : 1 ≤ (s.inodes k).links_count)
    (hptrs : ∀ i, i < directBlocks + 1 → (s.inodes k).blk i < s.sb.blocks_count) :
    (remove_file s p).2 = true ∧
    ((s.inodes k).links_count = 1 →
      (remove_file s p).1.inodes k = zeroInode ∧
      (remove_file s p).1.sb.free_inodes_count = s.sb.free_inodes_count + 1 ∧
      (∀ i, i < directBlocks + 1 → (s.inodes k).blk i ≠ 0 →
        (remove_file s p).1.bitmap ((s.inodes k).blk i) = false)) ∧
    (2 ≤ (s.inodes k).links_count →
      (remove_file s p).1.inodes k =
        { s.inodes k with links_count := (s.inodes k).links_count - 1 }) ∧
    (∀ j, j ≠ k → (remove_file s p).1.inodes j = s.inodes j) := by
  unfold remove_file
  dsimp only
  rw [hf, if_neg hk0]
  simp only [read_inode_some s k hk0 hkle]
  rw [hq, if_neg hq0]
  simp only [read_inode_some s q hq0 hqle]
  set s1 := tombstoneBlocks s (directSeq (s.inodes q)) k with hs1
  have hs1i : s1.inodes = s.inodes := tombstoneBlocks_inodes _ _ _
  have hs1sb : s1.sb = s.sb := tombstoneBlocks_sb _ _ _
  by_cases hone : (s.inodes k).links_count - 1 = 0
  · rw [if_pos hone]
    obtain ⟨e1, e2, e3, e4⟩ := free_inode_effects s1 k hk0 (by rw [hs1sb]; exact hkle)
    refine ⟨rfl, ?_, ?_, ?_⟩
    · intro _
      refine ⟨e1, ?_, ?_⟩
      · rw [e3, hs1sb]
      · intro i hi hnz
        have := e4 i hi (by rw [hs1i]; exact hnz)
          (by rw [hs1i, hs1sb]; exact hptrs i hi)
        rw [hs1i] at this
        exact this
    · intro h2; omega
    · intro j hj
      rw [e2 j hj, hs1i]
  · rw [if_neg hone]
    refine ⟨rfl, ?_, ?_, ?_⟩
    · intro h1; omega
    · intro _
      rw [write_inode_self s1 k _ hk0 (by rw [hs1sb]; exact hkle)]
    · intro j hj
      rw [write_inode_other s1 k _ j hj, hs1i]

set_option maxRecDepth 100000 in
/-- C10, witness: /d in stateDirTree is a DIRECTORY (mode 2) that is not
empty (one live child entry referencing inode 3), yet remove_file("/d")
succeeds, frees inode 2 and its block 4, and leaves the child's inode
untouched. -/
theorem remove_file_no_type_check_witness :
    (stateDirTree.inodes 2).mode = 2 ∧
    countRefsBlock (stateDirTree.data 4) 3 false 0 blockSize = 1 ∧
    (remove_file stateDirTree [47, 100]).2 = true ∧
    (remove_file stateDirTree [47, 100]).1.inodes 2 = zeroInode ∧
    (remove_file stateDirTree [47, 100]).1.sb.free_inodes_count = 30 ∧
    (remove_file stateDirTree [47, 100]).1.bitmap 4 = false ∧
    (∀ j, j ≠ 2 → (remove_file stateDirTree [47, 100]).1.inodes j = stateDirTree.inodes j) := by
  have h := remove_file_no_type_check stateDirTree [47, 100] 2 1 (by decide) (by decide)
    (by decide) (by decide) (by decide) (by decide) (by decide) (by decide)
  obtain ⟨h1, h2, _h3, h4⟩ := h
  obtain ⟨e1, e2, e3⟩ := h2 (by decide)
  refine ⟨by decide, by decide, h1, e1, ?_, ?_, h4⟩
  · rw [e2]; rfl
  · have e : (stateDirTree.inodes 2).blk 0 = 4 := by decide
    rw [← e]
    exact e3 0 (by decide) (by decide)

end VFS

namespace VFS

/-! ### Reading through writeBytes -/

theorem writeBytes_lt (b : Block) (o : Nat) (bs : List Nat) (i : Nat) (h : i < o) :
    writeBytes b o bs i = b i := by
  unfold writeBytes
  rw [if_neg]
  rintro ⟨h1, _⟩
  omega

theorem writeBytes_ge (b : Block) (o : Nat) (bs : List Nat) (i : Nat)
    (h : o + bs.length ≤ i) : writeBytes b o bs i = b i := by
  unfold writeBytes
  rw [if_neg]
  rintro ⟨_, h2⟩
  omega

theorem writeBytes_in (b : Block) (o : Nat) (bs : List Nat) (i : Nat)
    (h1 : o ≤ i) (h2 : i < o + bs.length) : writeBytes b o bs i = bs.getD (i - o) 0 := by
  unfold writeBytes
  rw [if_pos ⟨h1, h2⟩]

/-! ### The bytes of a written directory entry -/

theorem getD_replicate_zero (n t : Nat) : (List.replicate n (0:Nat)).getD t 0 = 0 := by
  induction n generalizing t with
  | zero => simp [List.getD_eq_default]
  | succ m ih =>
    cases t with
    | zero => simp [List.replicate]
    | succ u =>
      show (0 :: List.replicate m (0:Nat)).getD (u + 1) 0 = 0
      rw [List.getD_cons_succ]
      exact ih u

theorem dirEntryBytes_length (ino rl nl ft : Nat) (name : List Nat) :
    (dirEntryBytes ino rl nl ft name).length = 264 := by
  simp [dirEntryBytes, strncpyBytes, le32, le16]
  omega

/-- The 264 entry bytes in explicit cons form down to the name field. -/
theorem dirEntryBytes_cons (ino rl nl ft : Nat) (name : List Nat) :
    dirEntryBytes ino rl nl ft name =
      ino % 256 :: ino / 256 % 256 :: ino / 256 ^ 2 % 256 :: ino / 256 ^ 3 % 256 ::
      rl % 256 :: rl / 256 % 256 :: nl % 256 :: ft % 256 ::
      (strncpyBytes name 255 ++ [0]) := by
  simp [dirEntryBytes, le32, le16]

theorem entInode_writeEntry (b : Block) (o ino rl nl ft : Nat) (name : List Nat) :
    entInode (writeBytes b o (dirEntryBytes ino rl nl ft name)) o = ino % 2 ^ 32 := by
  have hl := dirEntryBytes_length ino rl nl ft name
  unfold entInode read32
  rw [writeBytes_in _ _ _ _ (by omega) (by omega),
      writeBytes_in _ _ _ _ (by omega) (by omega),
      writeBytes_in _ _ _ _ (by omega) (by omega),
      writeBytes_in _ _ _ _ (by omega) (by omega)]
  rw [dirEntryBytes_cons]
  have e0 : o - o = 0 := by omega
  have e1 : o + 1 - o = 1 := by omega
  have e2 : o + 2 - o = 2 := by omega
  have e3 : o + 3 - o = 3 := by omega
  rw [e0, e1, e2, e3]
  simp only [List.getD_cons_zero, List.getD_cons_succ]
  omega

theorem entRecLen_writeEntry (b : Block) (o ino rl nl ft : Nat) (name : List Nat) :
    entRecLen (writeBytes b o (dirEntryBytes ino rl nl ft name)) o = rl % 2 ^ 16 := by
  have hl := dirEntryBytes_length ino rl nl ft name
  unfold entRecLen read16
  rw [writeBytes_in _ _ _ _ (by omega) (by omega),
      writeBytes_in _ _ _ _ (by omega) (by omega)]
  rw [dirEntryBytes_cons]
  have e4 : o + 4 - o = 4 := by omega
  have e5 : o + 4 + 1 - o = 5 := by omega
  rw [e4, e5]
  simp only [List.getD_cons_zero, List.getD_cons_succ]
  omega

theorem entNameLen_writeEntry (b : Block) (o ino rl nl ft : Nat) (name : List Nat) :
    entNameLen (writeBytes b o (dirEntryBytes ino rl nl ft name)) o = nl % 256 := by
  have hl := dirEntryBytes_length ino rl nl ft name
  unfold entNameLen read8
  rw [writeBytes_in _ _ _ _ (by omega) (by omega)]
  rw [dirEntryBytes_cons]
  have e6 : o + 6 - o = 6 := by omega
  rw [e6]
  simp only [List.getD_cons_zero, List.getD_cons_succ]

theorem nameByte_writeEntry (b : Block) (o ino rl nl ft : Nat) (name : List Nat) (t : Nat)
    (ht : t < 255) (hz : 0 ∉ name) (hlen : name.length ≤ 255) :
    (writeBytes b o (dirEntryBytes ino rl nl ft name)) (o + 8 + t) = name.getD t 0 := by
  have hl := dirEntryBytes_length ino rl nl ft name
  rw [writeBytes_in _ _ _ _ (by omega) (by omega)]
  rw [dirEntryBytes_cons]
  have e : o + 8 + t - o = t + 8 := by omega
  rw [e]
  simp only [List.getD_cons_succ]
  have hcs : cstrBytes name = name := by
    unfold cstrBytes
    rw [List.takeWhile_eq_self_iff]
    intro x hx
    simp only [decide_eq_true_eq]
    intro h0
    exact hz (h0 ▸ hx)
  unfold strncpyBytes
  rw [hcs, List.take_of_length_le hlen]
  by_cases hcase : t < name.length
  · rw [List.getD_append _ _ _ _ (by simp; omega)]
    rw [List.getD_append _ _ _ _ hcase]
  · push_neg at hcase
    rw [List.getD_eq_default _ _ hcase]
    by_cases h2 : t < 255
    · rw [List.getD_append _ _ _ _ (by simp; omega)]
      rw [List.getD_append_right _ _ _ _ (by omega)]
      exact getD_replicate_zero _ _
    · omega

/-- Reading a whole-block write of an entry over the zero block (the
insertEntryLoop fresh-block case writes the entry at offset 0 of an
uninitialized buffer modelled as zero). -/
theorem zeroByte_writeEntry (o ino rl nl ft : Nat) (name : List Nat) (i : Nat)
    (h : 264 ≤ i) : (writeBytes zeroBlock o (dirEntryBytes ino rl nl ft name)) (o + i) = 0 := by
  rw [writeBytes_ge]
  · rfl
  · rw [dirEntryBytes_length]; omega

/-! ### strncmp and entMatches -/

theorem strncmpEqB_self (blk : Block) (o : Nat) (name : List Nat) (hz : 0 ∉ name)
    (hb : ∀ t, t < name.length → blk (o + t) = name.getD t 0) :
    strncmpEqB blk o name name.length = true := by
  induction name generalizing o with
  | nil => rfl
  | cons c rest ih =>
    unfold strncmpEqB strncmpEqGo
    simp only [List.length_cons, List.cons_append]
    have h0 : blk (o + 0) = c := by simpa using hb 0 (by simp)
    rw [Nat.add_zero] at h0
    rw [if_pos h0]
    have hc : c ≠ 0 := by intro h; exact hz (by simp [h])
    rw [if_neg hc]
    have := ih (o + 1) (fun h => hz (List.mem_cons_of_mem _ h))
      (fun t ht => by
        have := hb (t + 1) (by simp only [List.length_cons]; omega)
        rw [show o + (t + 1) = o + 1 + t by omega] at this
        simpa using this)
    exact this

theorem strncmpEqB_iff (blk : Block) (o : Nat) (stored comp : List Nat)
    (hz : 0 ∉ stored) (hzc : 0 ∉ comp)
    (hb : ∀ t, t < stored.length → blk (o + t) = stored.getD t 0)
    (hlen : comp.length = stored.length) :
    strncmpEqB blk o comp stored.length = (comp == stored) := by
  induction stored generalizing comp o with
  | nil =>
    simp only [List.length_nil] at hlen
    rw [List.length_eq_zero] at hlen
    subst hlen
    rfl
  | cons a as ih =>
    match comp, hlen with
    | c :: cr, hlen =>
      unfold strncmpEqB strncmpEqGo
      simp only [List.length_cons, List.cons_append]
      have h0 : blk (o + 0) = a := by simpa using hb 0 (by simp)
      rw [Nat.add_zero] at h0
      rw [h0]
      by_cases hac : a = c
      · subst hac
        rw [if_pos rfl]
        have hc : a ≠ 0 := by intro h; exact hz (by simp [h])
        rw [if_neg hc]
        have hrec := ih (o + 1) cr (fun h => hz (List.mem_cons_of_mem _ h))
          (fun h => hzc (List.mem_cons_of_mem _ h))
          (fun t ht => by
            have := hb (t + 1) (by simp only [List.length_cons]; omega)
            rw [show o + (t + 1) = o + 1 + t by omega] at this
            simpa using this)
          (by simpa using hlen)
        unfold strncmpEqB at hrec
        rw [hrec]
        show (cr == as) = (a :: cr == a :: as)
        simp
      · rw [if_neg hac]
        have : (c :: cr == a :: as) = false := by
          apply beq_eq_false_iff_ne.mpr
          intro h
          injection h with h1 h2
          exact hac h1.symm
        rw [this]

theorem entMatches_len_ne (blk : Block) (o : Nat) (comp : List Nat)
    (h : comp.length ≠ entNameLen blk o) : entMatches blk o comp = false := by
  unfold entMatches
  rw [beq_eq_false_iff_ne.mpr h, Bool.and_false]

theorem entMatches_self (blk : Block) (o : Nat) (name : List Nat) (hz : 0 ∉ name)
    (hnl : entNameLen blk o = name.length)
    (hb : ∀ t, t < name.length → blk (o + 8 + t) = name.getD t 0) :
    entMatches blk o name = true := by
  unfold entMatches
  rw [hnl]
  rw [strncmpEqB_self blk (o + 8) name hz hb]
  simp

theorem entMatches_stored (blk : Block) (o : Nat) (stored comp : List Nat)
    (hz : 0 ∉ stored) (hzc : 0 ∉ comp)
    (hnl : entNameLen blk o = stored.length)
    (hb : ∀ t, t < stored.length → blk (o + 8 + t) = stored.getD t 0)
    (hlen : comp.length = stored.length) :
    entMatches blk o comp = (comp == stored) := by
  unfold entMatches
  rw [hnl]
  rw [strncmpEqB_iff blk (o + 8) stored comp hz hzc hb hlen]
  rw [beq_iff_eq.mpr hlen]
  simp

end VFS

namespace VFS

/-! ### Single-step unfolding lemmas for the directory-block scans

Each scan recurses on a fuel literal; these lemmas expose one step with
the fuel and offset arithmetic supplied as equations, so that a chain of
rewrites can walk a concrete block shape with a symbolic entry name. -/

theorem dupScanStep (blk : Block) (name : List Nat) (o fuel m o2 : Nat)
    (hf : fuel = m + 1) (ho : o < blockSize)
    (h1 : entInode blk o ≠ 0) (h2 : entRecLen blk o ≠ 0)
    (hm : entMatches blk o name = false) (ho2 : o + entRecLen blk o = o2) :
    dupScanBlock blk name o fuel = dupScanBlock blk name o2 m := by
  subst hf
  subst ho2
  simp only [dupScanBlock]
  rw [if_pos ho, if_neg (by tauto), hm]
  simp

theorem dupScanEnd (blk : Block) (name : List Nat) (o fuel m : Nat)
    (hf : fuel = m + 1) (h : entInode blk o = 0 ∨ entRecLen blk o = 0) :
    dupScanBlock blk name o fuel = false := by
  subst hf
  simp only [dupScanBlock]
  by_cases ho : o < blockSize
  · rw [if_pos ho, if_pos h]
  · rw [if_neg ho]

theorem searchBlockStep (blk : Block) (comp : List Nat) (o fuel m o2 : Nat)
    (hf : fuel = m + 1) (ho : o < blockSize)
    (h1 : entInode blk o ≠ 0) (h2 : entRecLen blk o ≠ 0)
    (hm : entMatches blk o comp = false) (ho2 : o + entRecLen blk o = o2) :
    searchBlockForComp blk comp o fuel = searchBlockForComp blk comp o2 m := by
  subst hf
  subst ho2
  simp only [searchBlockForComp]
  rw [if_pos ho, if_neg (by tauto), hm]
  simp

theorem searchBlockEnd (blk : Block) (comp : List Nat) (o fuel m : Nat)
    (hf : fuel = m + 1) (h : entInode blk o = 0 ∨ entRecLen blk o = 0) :
    searchBlockForComp blk comp o fuel = none := by
  subst hf
  simp only [searchBlockForComp]
  by_cases ho : o < blockSize
  · rw [if_pos ho, if_pos h]
  · rw [if_neg ho]

theorem searchBlockHit (blk : Block) (comp : List Nat) (o fuel m : Nat)
    (hf : fuel = m + 1) (ho : o < blockSize)
    (h1 : entInode blk o ≠ 0) (h2 : entRecLen blk o ≠ 0)
    (hm : entMatches blk o comp = true) :
    searchBlockForComp blk comp o fuel = some (entInode blk o) := by
  subst hf
  simp only [searchBlockForComp]
  rw [if_pos ho, if_neg (by tauto), hm]
  simp

theorem findRefStep (blk : Block) (target : Nat) (o fuel m o2 : Nat)
    (hf : fuel = m + 1) (ho : o < blockSize)
    (h1 : entInode blk o ≠ 0) (h2 : entRecLen blk o ≠ 0)
    (hm : entInode blk o ≠ target) (ho2 : o + entRecLen blk o = o2) :
    findRefOff blk target o fuel = findRefOff blk target o2 m := by
  subst hf
  subst ho2
  simp only [findRefOff]
  rw [if_pos ho, if_neg (by tauto), if_neg hm]

theorem findRefHit (blk : Block) (target : Nat) (o fuel m : Nat)
    (hf : fuel = m + 1) (ho : o < blockSize)
    (h1 : entInode blk o ≠ 0) (h2 : entRecLen blk o ≠ 0)
    (hm : entInode blk o = target) :
    findRefOff blk target o fuel = some o := by
  subst hf
  simp only [findRefOff]
  rw [if_pos ho, if_neg (by tauto), if_pos hm]

theorem countRefsEnd (blk : Block) (target : Nat) (dots : Bool) (o fuel m : Nat)
    (hf : fuel = m + 1) (h : entRecLen blk o = 0) :
    countRefsBlock blk target dots o fuel = 0 := by
  subst hf
  simp only [countRefsBlock]
  by_cases ho : o < blockSize
  · rw [if_pos ho, if_pos h]
  · rw [if_neg ho]

theorem countRefsDot (blk : Block) (target : Nat) (o fuel m o2 : Nat)
    (hf : fuel = m + 1) (ho : o < blockSize)
    (h2 : entRecLen blk o ≠ 0) (h1 : entInode blk o ≠ 0)
    (hd : entIsDot blk o = true) (ho2 : o + entRecLen blk o = o2) :
    countRefsBlock blk target false o fuel = countRefsBlock blk target false o2 m := by
  subst hf
  subst ho2
  simp only [countRefsBlock]
  rw [if_pos ho, if_neg h2, if_neg h1, hd]
  simp

theorem countRefsHit (blk : Block) (target : Nat) (o fuel m o2 : Nat)
    (hf : fuel = m + 1) (ho : o < blockSize)
    (h2 : entRecLen blk o ≠ 0)
    (hd : entIsDot blk o = false) (hm : entInode blk o = target) (ht : target ≠ 0)
    (ho2 : o + entRecLen blk o = o2) :
    countRefsBlock blk target false o fuel = countRefsBlock blk target false o2 m + 1 := by
  subst hf
  subst ho2
  simp only [countRefsBlock]
  rw [if_pos ho, if_neg h2, if_neg (by rw [hm]; exact ht), hd, if_pos hm]
  simp

theorem countRefsMiss (blk : Block) (target : Nat) (o fuel m o2 : Nat)
    (hf : fuel = m + 1) (ho : o < blockSize)
    (h2 : entRecLen blk o ≠ 0) (h1 : entInode blk o ≠ 0)
    (hd : entIsDot blk o = false) (hm : entInode blk o ≠ target)
    (ho2 : o + entRecLen blk o = o2) :
    countRefsBlock blk target false o fuel = countRefsBlock blk target false o2 m := by
  subst hf
  subst ho2
  simp only [countRefsBlock]
  rw [if_pos ho, if_neg h2, if_neg h1, hd, if_neg hm]
  simp

/-! ### Congruence of entry fields under byte agreement -/

theorem entInode_congr (b b' : Block) (o : Nat) (h0 : b o = b' o)
    (h1 : b (o + 1) = b' (o + 1)) (h2 : b (o + 2) = b' (o + 2))
    (h3 : b (o + 3) = b' (o + 3)) : entInode b o = entInode b' o := by
  unfold entInode read32
  rw [h0, h1, h2, h3]

theorem entRecLen_congr (b b' : Block) (o : Nat) (h4 : b (o + 4) = b' (o + 4))
    (h5 : b (o + 4 + 1) = b' (o + 4 + 1)) : entRecLen b o = entRecLen b' o := by
  unfold entRecLen read16
  rw [h4, h5]

theorem entNameLen_congr (b b' : Block) (o : Nat) (h6 : b (o + 6) = b' (o + 6)) :
    entNameLen b o = entNameLen b' o := by
  unfold entNameLen read8
  rw [h6]

/-! ### Path lemmas for a root-level component -/

theorem get_absolute_path_cons47 (name : List Nat) (hne : name ≠ [])
    (h47 : 47 ∉ name) : get_absolute_path (47 :: name) = 47 :: name := by
  have hlast : (47 :: name).getLast? ≠ some 47 := by
    match name, hne with
    | x :: xs, _ =>
      rw [List.getLast?_cons_cons]
      intro h
      exact h47 (List.mem_of_mem_getLast? (by rw [h]; rfl))
  unfold get_absolute_path
  simp only [show ((47 :: name : List Nat) = [] ∨ (47 :: name).head? ≠ some 47) = False
    from by simp, if_false]
  rw [if_neg (by rintro ⟨-, h⟩; exact hlast h)]

theorem splitCompsGo_noslash (cs : List Nat) : ∀ cur : List Nat, (∀ c ∈ cs, c ≠ 47) →
    splitCompsGo cs cur =
      if cur.reverse ++ cs = [] then [] else [cur.reverse ++ cs] := by
  induction cs with
  | nil =>
    intro cur _
    unfold splitCompsGo
    by_cases h : cur = []
    · subst h; rfl
    · rw [if_neg h, List.append_nil, if_neg (by simpa using h)]
  | cons c rest ih =>
    intro cur hns
    unfold splitCompsGo
    rw [if_neg (hns c (by simp))]
    rw [ih (c :: cur) (fun d hd => hns d (by simp [hd]))]
    have : (c :: cur).reverse ++ rest = cur.reverse ++ (c :: rest) := by simp
    rw [this]

theorem pathComps_cons47 (name : List Nat) (hne : name ≠ []) (h47 : 47 ∉ name) :
    pathComps (47 :: name) = [name] := by
  unfold pathComps
  show splitCompsGo name [] = [name]
  rw [splitCompsGo_noslash name [] (fun c hc h => h47 (h ▸ hc))]
  simp [hne]

theorem findIdx47_last (l : List Nat) : ∀ i : Nat, (∀ c ∈ l, c ≠ 47) →
    List.findIdx? (fun c => c = 47) (l ++ [47]) i = some (i + l.length) := by
  induction l with
  | nil =>
    intro i _
    rw [List.nil_append, List.findIdx?_cons]
    simp
  | cons c rest ih =>
    intro i h
    rw [List.cons_append, List.findIdx?_cons]
    rw [if_neg (by simp [h c (by simp)])]
    rw [ih (i + 1) (fun d hd => h d (by simp [hd]))]
    simp only [List.length_cons]
    rw [Nat.add_comm rest.length 1]
    rw [Nat.add_assoc]

theorem splitParent_cons47 (name : List Nat) (h47 : 47 ∉ name) :
    splitParent (47 :: name) = ([47], name) := by
  unfold splitParent lastSlashIdx
  have hrev : (47 :: name).reverse = name.reverse ++ [47] := by simp
  rw [hrev]
  rw [findIdx47_last name.reverse 0 (fun c hc h => h47 (h ▸ (List.mem_reverse.mp hc)))]
  simp only [Nat.zero_add, List.length_reverse, List.length_cons]
  rw [show name.length + 1 - 1 - name.length = 0 by omega]
  rw [if_pos rfl]
  rfl

end VFS

namespace VFS

set_option maxRecDepth 1000000

theorem dup_mkfs64_gen (name : List Nat) (hz : 0 ∉ name)
    (hd1 : name ≠ [46]) (hd2 : name ≠ [46, 46]) :
    dupExists (mkfs 262144) rootIno64 name = false := by
  have hm0 : entMatches rootBlk64 0 name = false := by
    by_cases hc : name.length = 1
    · rw [entMatches_stored rootBlk64 0 [46] name (by decide) hz
        (by decide)
        (by
          intro t ht
          have ht0 : t = 0 := by simp at ht; omega
          subst ht0
          decide)
        hc]
      exact beq_eq_false_iff_ne.mpr hd1
    · exact entMatches_len_ne _ _ _
        (by rw [show entNameLen rootBlk64 0 = 1 from by decide]; exact hc)
  have hm1 : entMatches rootBlk64 264 name = false := by
    by_cases hc : name.length = 2
    · rw [entMatches_stored rootBlk64 264 [46, 46] name (by decide) hz
        (by decide)
        (by
          intro t ht
          simp at ht
          match t, ht with
          | 0, _ => decide
          | 1, _ => decide)
        hc]
      exact beq_eq_false_iff_ne.mpr hd2
    · exact entMatches_len_ne _ _ _
        (by rw [show entNameLen rootBlk64 264 = 2 from by decide]; exact hc)
  have hdup : dupScanBlock rootBlk64 name 0 blockSize = false := by
    rw [dupScanStep rootBlk64 name 0 blockSize 4095 264 rfl (by decide) (by decide)
      (by decide) hm0 (by decide)]
    rw [dupScanStep rootBlk64 name 264 4095 4094 528 rfl (by decide) (by decide)
      (by decide) hm1 (by decide)]
    exact dupScanEnd rootBlk64 name 528 4094 4093 rfl (Or.inl (by decide))
  unfold dupExists
  rw [show directSeq rootIno64 = [3] from rfl]
  simp only [List.any_cons, List.any_nil]
  rw [show read_block (mkfs 262144) 3 = some rootBlk64 from rfl]
  simp only [hdup, Bool.or_false]

theorem create_file_mkfs64 (name : List Nat) (hz : 0 ∉ name)
    (hd1 : name ≠ [46]) (hd2 : name ≠ [46, 46]) :
    create_file (mkfs 262144) [47] name 1 = (S9f name, 2) := by
  have hins : insertEntryLoop 2 1 name s9 rootIno64 (List.range directBlocks) =
      ((write_block s9 3
        (writeBytes rootBlk64 528 (dirEntryBytes 2 dirEntrySize name.length 1 name))).1,
       rootIno64, true) := by
    rw [show List.range directBlocks =
      0 :: [1, 2, 3, 4, 5, 6, 7, 8, 9, 10, 11] from rfl]
    simp only [insertEntryLoop]
    rw [if_neg (by decide)]
    simp only [show rootIno64.blk 0 = 3 from rfl,
      show read_block s9 3 = some rootBlk64 from rfl,
      show findSlotOff rootBlk64 0 blockSize = some 528 from by decide]
  simp only [create_file]
  simp only [show find_inode_by_path (mkfs 262144) [47] = 1 from by decide]
  rw [if_neg (by decide)]
  simp only [show read_inode (mkfs 262144) 1 = some rootIno64 from rfl]
  simp only [show rootIno64.mode = 2 from rfl]
  rw [if_neg (by decide)]
  rw [dup_mkfs64_gen name hz hd1 hd2]
  simp only [Bool.false_eq_true, if_false]
  simp only [show (allocate_inode (mkfs 262144)).2 = 2 from rfl]
  rw [if_neg (by decide), if_neg (by decide)]
  simp only [createFinish]
  simp only [show (write_inode (allocate_inode (mkfs 262144)).1 2
      ⟨1, 0, 1, List.replicate 13 0⟩).1 = s9 from rfl]
  simp only [hins]
  rfl

end VFS

namespace VFS

set_option maxRecDepth 100000

theorem find_S9f_255 (name : List Nat) (hl : name.length = 255) (h0 : 0 ∉ name)
    (h47 : 47 ∉ name) : find_inode_by_path (S9f name) (47 :: name) = 2 := by
  have hne : name ≠ [] := by intro h; rw [h] at hl; simp at hl
  have hb0 : ∀ i, i < 528 →
      (writeBytes rootBlk64 528 (dirEntryBytes 2 dirEntrySize name.length 1 name)) i
        = rootBlk64 i := fun i hi => writeBytes_lt _ _ _ _ hi
  set blkI := writeBytes rootBlk64 528 (dirEntryBytes 2 dirEntrySize name.length 1 name)
    with hblkI
  have hio0 : entInode blkI 0 = 1 := by
    rw [entInode_congr blkI rootBlk64 0 (hb0 0 (by decide)) (hb0 1 (by decide))
      (hb0 2 (by decide)) (hb0 3 (by decide))]
    decide
  have hrl0 : entRecLen blkI 0 = 264 := by
    rw [entRecLen_congr blkI rootBlk64 0 (hb0 4 (by decide)) (hb0 5 (by decide))]
    decide
  have hnl0 : entNameLen blkI 0 = 1 := by
    rw [entNameLen_congr blkI rootBlk64 0 (hb0 6 (by decide))]
    decide
  have hio1 : entInode blkI 264 = 1 := by
    rw [entInode_congr blkI rootBlk64 264 (hb0 264 (by decide)) (hb0 265 (by decide))
      (hb0 266 (by decide)) (hb0 267 (by decide))]
    decide
  have hrl1 : entRecLen blkI 264 = 264 := by
    rw [entRecLen_congr blkI rootBlk64 264 (hb0 268 (by decide)) (hb0 269 (by decide))]
    decide
  have hnl1 : entNameLen blkI 264 = 2 := by
    rw [entNameLen_congr blkI rootBlk64 264 (hb0 270 (by decide))]
    decide
  have hio2 : entInode blkI 528 = 2 := by
    rw [hblkI, entInode_writeEntry]
    decide
  have hrl2 : entRecLen blkI 528 = 264 := by
    rw [hblkI, entRecLen_writeEntry]
    decide
  have hnl2 : entNameLen blkI 528 = name.length := by
    rw [hblkI, entNameLen_writeEntry]
    rw [hl]
  have hm0 : entMatches blkI 0 name = false := by
    apply entMatches_len_ne
    rw [hnl0, hl]
    decide
  have hm1 : entMatches blkI 264 name = false := by
    apply entMatches_len_ne
    rw [hnl1, hl]
    decide
  have hm2 : entMatches blkI 528 name = true := by
    apply entMatches_self blkI 528 name h0 hnl2
    intro t ht
    rw [hblkI]
    exact nameByte_writeEntry rootBlk64 528 2 dirEntrySize name.length 1 name t
      (by omega) h0 (by omega)
  have hsearch : searchBlockForComp blkI name 0 blockSize = some 2 := by
    rw [searchBlockStep blkI name 0 blockSize 4095 264 rfl (by decide)
      (by rw [hio0]; decide) (by rw [hrl0]; decide) hm0 (by rw [hrl0])]
    rw [searchBlockStep blkI name 264 4095 4094 528 rfl (by decide)
      (by rw [hio1]; decide) (by rw [hrl1]; decide) hm1 (by rw [hrl1])]
    rw [searchBlockHit blkI name 528 4094 4093 rfl (by decide)
      (by rw [hio2]; decide) (by rw [hrl2]; decide) hm2]
    rw [hio2]
  unfold find_inode_by_path
  rw [get_absolute_path_cons47 name hne h47]
  rw [if_neg (by simp [hne])]
  rw [pathComps_cons47 name hne h47]
  simp only [walkComps]
  simp only [show read_inode (S9f name) 1 = some rootIno64 from rfl]
  rw [if_neg (by decide)]
  have hsd : searchDirForComp (S9f name) rootIno64 name = some 2 := by
    unfold searchDirForComp
    rw [show directSeq rootIno64 = [3] from rfl]
    simp only [List.findSome?_cons]
    simp only [show read_block (S9f name) 3 = some blkI from rfl]
    rw [hsearch]
  simp only [hsd]

theorem find_S9f_256 (name : List Nat) (hl : name.length = 256) (h47 : 47 ∉ name) :
    find_inode_by_path (S9f name) (47 :: name) = 0 := by
  have hne : name ≠ [] := by intro h; rw [h] at hl; simp at hl
  have hb0 : ∀ i, i < 528 →
      (writeBytes rootBlk64 528 (dirEntryBytes 2 dirEntrySize name.length 1 name)) i
        = rootBlk64 i := fun i hi => writeBytes_lt _ _ _ _ hi
  have hge : ∀ i, 792 ≤ i →
      (writeBytes rootBlk64 528 (dirEntryBytes 2 dirEntrySize name.length 1 name)) i
        = rootBlk64 i := fun i hi =>
    writeBytes_ge _ _ _ _ (by rw [dirEntryBytes_length]; omega)
  set blkI := writeBytes rootBlk64 528 (dirEntryBytes 2 dirEntrySize name.length 1 name)
    with hblkI
  have hio0 : entInode blkI 0 = 1 := by
    rw [entInode_congr blkI rootBlk64 0 (hb0 0 (by decide)) (hb0 1 (by decide))
      (hb0 2 (by decide)) (hb0 3 (by decide))]
    decide
  have hrl0 : entRecLen blkI 0 = 264 := by
    rw [entRecLen_congr blkI rootBlk64 0 (hb0 4 (by decide)) (hb0 5 (by decide))]
    decide
  have hnl0 : entNameLen blkI 0 = 1 := by
    rw [entNameLen_congr blkI rootBlk64 0 (hb0 6 (by decide))]
    decide
  have hio1 : entInode blkI 264 = 1 := by
    rw [entInode_congr blkI rootBlk64 264 (hb0 264 (by decide)) (hb0 265 (by decide))
      (hb0 266 (by decide)) (hb0 267 (by decide))]
    decide
  have hrl1 : entRecLen blkI 264 = 264 := by
    rw [entRecLen_congr blkI rootBlk64 264 (hb0 268 (by decide)) (hb0 269 (by decide))]
    decide
  have hnl1 : entNameLen blkI 264 = 2 := by
    rw [entNameLen_congr blkI rootBlk64 264 (hb0 270 (by decide))]
    decide
  have hio2 : entInode blkI 528 = 2 := by
    rw [hblkI, entInode_writeEntry]
    decide
  have hrl2 : entRecLen blkI 528 = 264 := by
    rw [hblkI, entRecLen_writeEntry]
    decide
  have hnl2 : entNameLen blkI 528 = 0 := by
    rw [hblkI, entNameLen_writeEntry]
    rw [hl]
  have hio3 : entInode blkI 792 = 0 := by
    rw [entInode_congr blkI rootBlk64 792 (hge 792 (by decide)) (hge 793 (by decide))
      (hge 794 (by decide)) (hge 795 (by decide))]
    decide
  have hm0 : entMatches blkI 0 name = false := by
    apply entMatches_len_ne
    rw [hnl0, hl]
    decide
  have hm1 : entMatches blkI 264 name = false := by
    apply entMatches_len_ne
    rw [hnl1, hl]
    decide
  have hm2 : entMatches blkI 528 name = false := by
    apply entMatches_len_ne
    rw [hnl2, hl]
    decide
  have hsearch : searchBlockForComp blkI name 0 blockSize = none := by
    rw [searchBlockStep blkI name 0 blockSize 4095 264 rfl (by decide)
      (by rw [hio0]; decide) (by rw [hrl0]; decide) hm0 (by rw [hrl0])]
    rw [searchBlockStep blkI name 264 4095 4094 528 rfl (by decide)
      (by rw [hio1]; decide) (by rw [hrl1]; decide) hm1 (by rw [hrl1])]
    rw [searchBlockStep blkI name 528 4094 4093 792 rfl (by decide)
      (by rw [hio2]; decide) (by rw [hrl2]; decide) hm2 (by rw [hrl2])]
    exact searchBlockEnd blkI name 792 4093 4092 rfl (Or.inl hio3)
  unfold find_inode_by_path
  rw [get_absolute_path_cons47 name hne h47]
  rw [if_neg (by simp [hne])]
  rw [pathComps_cons47 name hne h47]
  simp only [walkComps]
  simp only [show read_inode (S9f name) 1 = some rootIno64 from rfl]
  rw [if_neg (by decide)]
  have hsd : searchDirForComp (S9f name) rootIno64 name = none := by
    unfold searchDirForComp
    rw [show directSeq rootIno64 = [3] from rfl]
    simp only [List.findSome?_cons]
    simp only [show read_block (S9f name) 3 = some blkI from rfl]
    rw [hsearch]
    simp [List.findSome?]
  simp only [hsd]

end VFS

namespace VFS

set_option maxRecDepth 100000

/-- C9.  Name-length boundary of create_file, settled on the fresh
64-block image at the root directory: a name of 255 bytes (NUL- and
slash-free) is stored by create_file and a subsequent path resolution of
that name finds the new inode 2; but a name of 256 bytes is NOT rejected:
create_file returns the new inode 2 as well (its name_len byte, a uint8_t,
wraps to 0), and path resolution of that name then fails with 0. -/
theorem create_file_name_length_boundary
    (name : List Nat) (h255 : name.length = 255) (h0 : 0 ∉ name) (h47 : 47 ∉ name)
    (b : List Nat) (h256 : b.length = 256) (h0b : 0 ∉ b) (h47b : 47 ∉ b) :
    ((create_file (mkfs 262144) [47] name 1).2 = 2 ∧
      find_inode_by_path (create_file (mkfs 262144) [47] name 1).1 (47 :: name) = 2) ∧
    ((create_file (mkfs 262144) [47] b 1).2 = 2 ∧
      find_inode_by_path (create_file (mkfs 262144) [47] b 1).1 (47 :: b) = 0) := by
  have hd1 : name ≠ [46] := by intro h; subst h; simp at h255
  have hd2 : name ≠ [46, 46] := by intro h; subst h; simp at h255
  have hd1b : b ≠ [46] := by intro h; subst h; simp at h256
  have hd2b : b ≠ [46, 46] := by intro h; subst h; simp at h256
  refine ⟨⟨?_, ?_⟩, ?_, ?_⟩
  · rw [create_file_mkfs64 name h0 hd1 hd2]
  · rw [create_file_mkfs64 name h0 hd1 hd2]
    exact find_S9f_255 name h255 h0 h47
  · rw [create_file_mkfs64 b h0b hd1b hd2b]
  · rw [create_file_mkfs64 b h0b hd1b hd2b]
    exact find_S9f_256 b h256 h47b

/-- C9, witness: the 255-byte name "aaa...a" is stored and found; the
256-byte name "aaa...a" is accepted with return value 2 and then not
found. -/
theorem create_file_name_length_boundary_witness :
    ((create_file (mkfs 262144) [47] (List.replicate 255 97) 1).2 = 2 ∧
      find_inode_by_path (create_file (mkfs 262144) [47] (List.replicate 255 97) 1).1
        (47 :: List.replicate 255 97) = 2) ∧
    ((create_file (mkfs 262144) [47] (List.replicate 256 97) 1).2 = 2 ∧
      find_inode_by_path (create_file (mkfs 262144) [47] (List.replicate 256 97) 1).1
        (47 :: List.replicate 256 97) = 0) :=
  create_file_name_length_boundary (List.replicate 255 97) (by simp) (by simp) (by simp)
    (List.replicate 256 97) (by simp) (by simp) (by simp)

end VFS

namespace VFS

set_option maxRecDepth 1000000

theorem create_file_mkfs64_dir (name : List Nat) (hz : 0 ∉ name)
    (hd1 : name ≠ [46]) (hd2 : name ≠ [46, 46]) :
    create_file (mkfs 262144) [47] name 2 = (S6f name, 2) := by
  have hins : insertEntryLoop 2 2 name s6 rootIno64 (List.range directBlocks) =
      ((write_block s6 3
        (writeBytes rootBlk64 528 (dirEntryBytes 2 dirEntrySize name.length 2 name))).1,
       rootIno64, true) := by
    rw [show List.range directBlocks =
      0 :: [1, 2, 3, 4, 5, 6, 7, 8, 9, 10, 11] from rfl]
    simp only [insertEntryLoop]
    rw [if_neg (by decide)]
    simp only [show rootIno64.blk 0 = 3 from rfl,
      show read_block s6 3 = some rootBlk64 from rfl,
      show findSlotOff rootBlk64 0 blockSize = some 528 from by decide]
  simp only [create_file]
  simp only [show find_inode_by_path (mkfs 262144) [47] = 1 from by decide]
  rw [if_neg (by decide)]
  simp only [show read_inode (mkfs 262144) 1 = some rootIno64 from rfl]
  simp only [show rootIno64.mode = 2 from rfl]
  rw [if_neg (by decide)]
  rw [dup_mkfs64_gen name hz hd1 hd2]
  simp only [Bool.false_eq_true, if_false]
  simp only [show (allocate_inode (mkfs 262144)).2 = 2 from rfl]
  norm_num
  simp only [show (allocate_block (allocate_inode (mkfs 262144)).1).2 = 4 from rfl]
  norm_num
  simp only [createFinish]
  simp only [show (write_inode
      ((write_block (allocate_block (allocate_inode (mkfs 262144)).1).1 4
        (newDirBlock 2 1)).1)
      2 (Inode.setBlk ⟨2, 0, 1, List.replicate 13 0⟩ 0 4)).1 = s6 from rfl]
  simp only [hins]
  rfl

theorem create_directory_mkfs64 (name : List Nat) (hne : name ≠ []) (hz : 0 ∉ name)
    (h47 : 47 ∉ name) (hd1 : name ≠ [46]) (hd2 : name ≠ [46, 46]) :
    create_directory (mkfs 262144) (47 :: name) = (S6f name, true) := by
  simp only [create_directory]
  rw [get_absolute_path_cons47 name hne h47]
  rw [splitParent_cons47 name h47]
  simp only []
  rw [create_file_mkfs64_dir name hz hd1 hd2]
  rfl

end VFS

namespace VFS

set_option maxRecDepth 1000000

theorem find_S6f (name : List Nat) (hne : name ≠ []) (hlen : name.length ≤ 255)
    (hz : 0 ∉ name) (h47 : 47 ∉ name) (hd1 : name ≠ [46]) (hd2 : name ≠ [46, 46]) :
    find_inode_by_path (S6f name) (47 :: name) = 2 := by
  have hb0 : ∀ i, i < 528 →
      (writeBytes rootBlk64 528 (dirEntryBytes 2 dirEntrySize name.length 2 name)) i
        = rootBlk64 i := fun i hi => writeBytes_lt _ _ _ _ hi
  set blkI := writeBytes rootBlk64 528 (dirEntryBytes 2 dirEntrySize name.length 2 name)
    with hblkI
  have hio0 : entInode blkI 0 = 1 := by
    rw [entInode_congr blkI rootBlk64 0 (hb0 0 (by decide)) (hb0 1 (by decide))
      (hb0 2 (by decide)) (hb0 3 (by decide))]
    decide
  have hrl0 : entRecLen blkI 0 = 264 := by
    rw [entRecLen_congr blkI rootBlk64 0 (hb0 4 (by decide)) (hb0 5 (by decide))]
    decide
  have hnl0 : entNameLen blkI 0 = 1 := by
    rw [entNameLen_congr blkI rootBlk64 0 (hb0 6 (by decide))]
    decide
  have hio1 : entInode blkI 264 = 1 := by
    rw [entInode_congr blkI rootBlk64 264 (hb0 264 (by decide)) (hb0 265 (by decide))
      (hb0 266 (by decide)) (hb0 267 (by decide))]
    decide
  have hrl1 : entRecLen blkI 264 = 264 := by
    rw [entRecLen_congr blkI rootBlk64 264 (hb0 268 (by decide)) (hb0 269 (by decide))]
    decide
  have hnl1 : entNameLen blkI 264 = 2 := by
    rw [entNameLen_congr blkI rootBlk64 264 (hb0 270 (by decide))]
    decide
  have hio2 : entInode blkI 528 = 2 := by
    rw [hblkI, entInode_writeEntry]
    decide
  have hrl2 : entRecLen blkI 528 = 264 := by
    rw [hblkI, entRecLen_writeEntry]
    decide
  have hnl2 : entNameLen blkI 528 = name.length := by
    rw [hblkI, entNameLen_writeEntry]
    exact Nat.mod_eq_of_lt (by omega)
  have hm0 : entMatches blkI 0 name = false := by
    by_cases hc : name.length = 1
    · rw [entMatches_stored blkI 0 [46] name (by decide) hz hnl0
        (by
          intro t ht
          have ht0 : t = 0 := by simp at ht; omega
          subst ht0
          show blkI 8 = 46
          rw [hb0 8 (by decide)]
          decide)
        hc]
      exact beq_eq_false_iff_ne.mpr hd1
    · exact entMatches_len_ne _ _ _ (by rw [hnl0]; exact hc)
  have hm1 : entMatches blkI 264 name = false := by
    by_cases hc : name.length = 2
    · rw [entMatches_stored blkI 264 [46, 46] name (by decide) hz hnl1
        (by
          intro t ht
          simp at ht
          match t, ht with
          | 0, _ =>
            show blkI 272 = 46
            rw [hb0 272 (by decide)]
            decide
          | 1, _ =>
            show blkI 273 = 46
            rw [hb0 273 (by decide)]
            decide)
        hc]
      exact beq_eq_false_iff_ne.mpr hd2
    · exact entMatches_len_ne _ _ _ (by rw [hnl1]; exact hc)
  have hm2 : entMatches blkI 528 name = true := by
    apply entMatches_self blkI 528 name hz hnl2
    intro t ht
    rw [hblkI]
    exact nameByte_writeEntry rootBlk64 528 2 dirEntrySize name.length 2 name t
      (by omega) hz (by omega)
  have hsearch : searchBlockForComp blkI name 0 blockSize = some 2 := by
    rw [searchBlockStep blkI name 0 blockSize 4095 264 rfl (by decide)
      (by rw [hio0]; decide) (by rw [hrl0]; decide) hm0 (by rw [hrl0])]
    rw [searchBlockStep blkI name 264 4095 4094 528 rfl (by decide)
      (by rw [hio1]; decide) (by rw [hrl1]; decide) hm1 (by rw [hrl1])]
    rw [searchBlockHit blkI name 528 4094 4093 rfl (by decide)
      (by rw [hio2]; decide) (by rw [hrl2]; decide) hm2]
    rw [hio2]
  unfold find_inode_by_path
  rw [get_absolute_path_cons47 name hne h47]
  rw [if_neg (by simp [hne])]
  rw [pathComps_cons47 name hne h47]
  simp only [walkComps]
  simp only [show read_inode (S6f name) 1 = some rootIno64 from rfl]
  rw [if_neg (by decide)]
  have hsd : searchDirForComp (S6f name) rootIno64 name = some 2 := by
    unfold searchDirForComp
    rw [show directSeq rootIno64 = [3] from rfl]
    simp only [List.findSome?_cons]
    simp only [show read_block (S6f name) 3 = some blkI from rfl]
    rw [hsearch]
  simp only [hsd]

theorem remove_directory_S6f (name : List Nat) (hne : name ≠ [])
    (hlen : name.length ≤ 255) (hz : 0 ∉ name) (h47 : 47 ∉ name)
    (hd1 : name ≠ [46]) (hd2 : name ≠ [46, 46]) :
    remove_directory (S6f name) (47 :: name) =
      (free_inode
        ((write_block (S6f name) 3
          (writeBytes
            (writeBytes rootBlk64 528 (dirEntryBytes 2 dirEntrySize name.length 2 name))
            528 (le32 0))).1) 2, true) := by
  have hb0 : ∀ i, i < 528 →
      (writeBytes rootBlk64 528 (dirEntryBytes 2 dirEntrySize name.length 2 name)) i
        = rootBlk64 i := fun i hi => writeBytes_lt _ _ _ _ hi
  set blkI := writeBytes rootBlk64 528 (dirEntryBytes 2 dirEntrySize name.length 2 name)
    with hblkI
  have hio0 : entInode blkI 0 = 1 := by
    rw [entInode_congr blkI rootBlk64 0 (hb0 0 (by decide)) (hb0 1 (by decide))
      (hb0 2 (by decide)) (hb0 3 (by decide))]
    decide
  have hrl0 : entRecLen blkI 0 = 264 := by
    rw [entRecLen_congr blkI rootBlk64 0 (hb0 4 (by decide)) (hb0 5 (by decide))]
    decide
  have hio1 : entInode blkI 264 = 1 := by
    rw [entInode_congr blkI rootBlk64 264 (hb0 264 (by decide)) (hb0 265 (by decide))
      (hb0 266 (by decide)) (hb0 267 (by decide))]
    decide
  have hrl1 : entRecLen blkI 264 = 264 := by
    rw [entRecLen_congr blkI rootBlk64 264 (hb0 268 (by decide)) (hb0 269 (by decide))]
    decide
  have hio2 : entInode blkI 528 = 2 := by
    rw [hblkI, entInode_writeEntry]
    decide
  have hrl2 : entRecLen blkI 528 = 264 := by
    rw [hblkI, entRecLen_writeEntry]
    decide
  have hfr : findRefOff blkI 2 0 blockSize = some 528 := by
    rw [findRefStep blkI 2 0 blockSize 4095 264 rfl (by decide)
      (by rw [hio0]; decide) (by rw [hrl0]; decide) (by rw [hio0]; decide) (by rw [hrl0])]
    rw [findRefStep blkI 2 264 4095 4094 528 rfl (by decide)
      (by rw [hio1]; decide) (by rw [hrl1]; decide) (by rw [hio1]; decide) (by rw [hrl1])]
    exact findRefHit blkI 2 528 4094 4093 rfl (by decide)
      (by rw [hio2]; decide) (by rw [hrl2]; decide) hio2
  have hec : dirEmptyCheck (S6f name)
      ⟨2, 0, 1, [4, 0, 0, 0, 0, 0, 0, 0, 0, 0, 0, 0, 0]⟩ = true := by
    unfold dirEmptyCheck
    rw [show directSeq (⟨2, 0, 1, [4, 0, 0, 0, 0, 0, 0, 0, 0, 0, 0, 0, 0]⟩ : Inode) = [4]
      from rfl]
    simp only [List.all_cons, List.all_nil]
    rw [show read_block (S6f name) 4 = some (newDirBlock 2 1) from rfl]
    simp only [show emptyScanBlock (newDirBlock 2 1) 0 blockSize = true from by decide,
      Bool.and_true]
  have htb : tombstoneBlocks (S6f name) (directSeq rootIno64) 2 =
      (write_block (S6f name) 3 (writeBytes blkI 528 (le32 0))).1 := by
    rw [show directSeq rootIno64 = [3] from rfl]
    unfold tombstoneBlocks
    simp only [List.foldl_cons, List.foldl_nil]
    unfold tombstoneStep
    simp only [show read_block (S6f name) 3 = some blkI from rfl]
    simp only [hfr]
  simp only [remove_directory]
  rw [find_S6f name hne hlen hz h47 hd1 hd2]
  rw [if_neg (by decide)]
  simp only [show read_inode (S6f name) 2 =
    some (⟨2, 0, 1, [4, 0, 0, 0, 0, 0, 0, 0, 0, 0, 0, 0, 0]⟩ : Inode) from rfl]
  rw [if_neg (by decide)]
  rw [if_neg (by simp [hec])]
  rw [get_absolute_path_cons47 name hne h47, splitParent_cons47 name h47]
  simp only []
  rw [show find_inode_by_path (S6f name) [47] = 1 from rfl]
  rw [if_neg (by decide)]
  simp only [show read_inode (S6f name) 1 = some rootIno64 from rfl]
  rw [htb]

end VFS

namespace VFS

set_option maxRecDepth 1000000

/-- C6.  mkdir ; rmdir restores the free-block and free-inode counters in
the ordinary case where the parent entry fits into an existing parent
directory block: on the fresh 64-block image, for every valid fresh name
(nonempty, at most 255 bytes, no NUL or slash bytes, not "." or ".."),
create_directory("/name") succeeds, remove_directory("/name") then
succeeds, and free_blocks_count and free_inodes_count return to their
pre-operation values.  (The "parent needed a new block" case of the claim
is refuted separately: that block is never freed again.) -/
theorem mkdir_rmdir_restores_counts (name : List Nat) (hne : name ≠ [])
    (hlen : name.length ≤ 255) (hz : 0 ∉ name) (h47 : 47 ∉ name)
    (hd1 : name ≠ [46]) (hd2 : name ≠ [46, 46]) :
    (create_directory (mkfs 262144) (47 :: name)).2 = true ∧
    (remove_directory (create_directory (mkfs 262144) (47 :: name)).1 (47 :: name)).2
      = true ∧
    (remove_directory (create_directory (mkfs 262144) (47 :: name)).1
        (47 :: name)).1.sb.free_blocks_count
      = (mkfs 262144).sb.free_blocks_count ∧
    (remove_directory (create_directory (mkfs 262144) (47 :: name)).1
        (47 :: name)).1.sb.free_inodes_count
      = (mkfs 262144).sb.free_inodes_count := by
  have hcd := create_directory_mkfs64 name hne hz h47 hd1 hd2
  have hrm := remove_directory_S6f name hne hlen hz h47 hd1 hd2
  refine ⟨by rw [hcd], ?_, ?_, ?_⟩
  · rw [hcd]
    simp only []
    rw [hrm]
  · rw [hcd]
    simp only []
    rw [hrm]
    rfl
  · rw [hcd]
    simp only []
    rw [hrm]
    rfl

/-- C6, witness: mkdir("/a") ; rmdir("/a") on the fresh 64-block image
returns the counters to 60 free blocks and 15 free inodes. -/
theorem mkdir_rmdir_restores_counts_witness :
    (create_directory (mkfs 262144) [47, 97]).2 = true ∧
    (remove_directory (create_directory (mkfs 262144) [47, 97]).1 [47, 97]).2 = true ∧
    (remove_directory (create_directory (mkfs 262144) [47, 97]).1
        [47, 97]).1.sb.free_blocks_count = (mkfs 262144).sb.free_blocks_count ∧
    (remove_directory (create_directory (mkfs 262144) [47, 97]).1
        [47, 97]).1.sb.free_inodes_count = (mkfs 262144).sb.free_inodes_count :=
  mkdir_rmdir_restores_counts [97] (by decide) (by decide) (by decide) (by decide)
    (by decide) (by decide)

end VFS

namespace VFS

set_option maxRecDepth 1000000
set_option maxHeartbeats 4000000

theorem entIsDot_congr (b b' : Block) (o : Nat) (h6 : b (o + 6) = b' (o + 6))
    (h8 : b (o + 8) = b' (o + 8)) (h9 : b (o + 9) = b' (o + 9)) :
    entIsDot b o = entIsDot b' o := by
  unfold entIsDot entNameLen read8
  rw [h6, h8, h9]

theorem entIsDot_false_of (blk : Block) (o : Nat) (name : List Nat)
    (hnl : entNameLen blk o = name.length % 256)
    (hb : ∀ t, t < name.length → blk (o + 8 + t) = name.getD t 0)
    (hlen : name.length ≤ 255) (hd1 : name ≠ [46]) (hd2 : name ≠ [46, 46]) :
    entIsDot blk o = false := by
  unfold entIsDot
  rw [hnl, Nat.mod_eq_of_lt (by omega)]
  by_cases h1 : name.length = 1
  · obtain ⟨c, rfl⟩ := List.length_eq_one.mp h1
    have hb0 : blk (o + 8) = c := by simpa using hb 0 (by simp)
    rw [hb0]
    have hc : c ≠ 46 := fun h => hd1 (by rw [h])
    simp [hc]
  · by_cases h2 : name.length = 2
    · obtain ⟨c, d, rfl⟩ : ∃ c d, name = [c, d] := by
        match name, h2 with
        | [c, d], _ => exact ⟨c, d, rfl⟩
      have hb0 : blk (o + 8) = c := by simpa using hb 0 (by simp)
      have hb1 : blk (o + 9) = d := by
        rw [show o + 9 = o + 8 + 1 from by omega]
        simpa using hb 1 (by simp)
      rw [hb0, hb1]
      have hcd : c ≠ 46 ∨ d ≠ 46 := by
        by_contra hcon
        push_neg at hcon
        exact hd2 (by rw [hcon.1, hcon.2])
      rcases hcd with h | h <;> simp [h]
    · rw [beq_eq_false_iff_ne.mpr h1, beq_eq_false_iff_ne.mpr h2]
      simp

theorem linkBase_eq : create_file (mkfs 262144) [47] [102] 1 = (linkBase, 2) :=
  create_file_mkfs64 [102] (by decide) (by decide) (by decide)

/-- One successful step of the create_link insertion loop: the slot found
in an existing block is filled, re-written, and the loop breaks because
the slot is neither at offset 0 nor too close to the block end. -/
theorem linkInsertFound (t tmode : Nat) (name : List Nat) (s : FS) (pino : Inode)
    (i : Nat) (rest : List Nat) (blk : Block) (o : Nat)
    (hnz : pino.blk i ≠ 0)
    (hrb : read_block s (pino.blk i) = some blk)
    (hfs : findSlotOff blk 0 blockSize = some o)
    (hok : o ≠ 0 ∧ o + dirEntrySize ≤ blockSize) :
    linkInsertLoop t tmode name s pino (i :: rest) =
      ((write_block ((write_block s (pino.blk i)
          (writeBytes blk o (dirEntryBytes t dirEntrySize name.length tmode name))).1)
          (pino.blk i)
          (writeBytes blk o (dirEntryBytes t dirEntrySize name.length tmode name))).1,
       pino, 1) := by
  simp only [linkInsertLoop]
  rw [if_neg hnz]
  simp only [hrb, hfs]
  rw [if_pos hok]

theorem create_link_linkBase (name : List Nat) (hne : name ≠ []) (h47 : 47 ∉ name) :
    create_link linkBase [47, 102] (47 :: name) = (S2f name, true) := by
  have hloop : linkInsertLoop 2 1 name linkBase rootIno64 (List.range directBlocks) =
      ((write_block
        ((write_block linkBase (rootIno64.blk 0)
          (writeBytes (linkBase.data 3) 792
            (dirEntryBytes 2 dirEntrySize name.length 1 name))).1) (rootIno64.blk 0)
        (writeBytes (linkBase.data 3) 792
          (dirEntryBytes 2 dirEntrySize name.length 1 name))).1,
       rootIno64, 1) := by
    rw [show List.range directBlocks =
      0 :: [1, 2, 3, 4, 5, 6, 7, 8, 9, 10, 11] from rfl]
    exact linkInsertFound 2 1 name linkBase rootIno64 0 [1, 2, 3, 4, 5, 6, 7, 8, 9, 10, 11]
      (linkBase.data 3) 792 (by decide) rfl (by decide) (by decide)
  simp only [create_link]
  simp only [show find_inode_by_path linkBase [47, 102] = 2 from by decide]
  rw [if_neg (by decide)]
  simp only [show read_inode linkBase 2 =
    some (⟨1, 0, 1, List.replicate 13 0⟩ : Inode) from rfl]
  rw [get_absolute_path_cons47 name hne h47, splitParent_cons47 name h47]
  rw [show (([47], name) : List Nat × List Nat).1 = [47] from rfl]
  rw [show (([47], name) : List Nat × List Nat).2 = name from rfl]
  rw [show find_inode_by_path linkBase [47] = 1 from rfl]
  rw [if_neg (by decide)]
  simp only [show read_inode linkBase 1 = some rootIno64 from rfl]
  rw [if_neg (by decide)]
  simp only [hloop]
  rfl

end VFS

namespace VFS

set_option maxRecDepth 1000000
set_option maxHeartbeats 4000000

theorem countTree_S2f (name : List Nat) (hz : 0 ∉ name) (hlen : name.length ≤ 255)
    (hd1 : name ≠ [46]) (hd2 : name ≠ [46, 46]) :
    countTree (S2f name) 2 false = 2 := by
  have hbase : ∀ i, i < 792 →
      (writeBytes (linkBase.data 3) 792 (dirEntryBytes 2 dirEntrySize name.length 1 name)) i
        = linkBase.data 3 i := fun i hi => writeBytes_lt _ _ _ _ hi
  have hge : ∀ i, 1056 ≤ i →
      (writeBytes (linkBase.data 3) 792 (dirEntryBytes 2 dirEntrySize name.length 1 name)) i
        = linkBase.data 3 i := fun i hi =>
    writeBytes_ge _ _ _ _ (by rw [dirEntryBytes_length]; omega)
  set blkN := writeBytes (linkBase.data 3) 792 (dirEntryBytes 2 dirEntrySize name.length 1 name)
    with hblkN
  have hio0 : entInode blkN 0 = 1 := by
    rw [entInode_congr blkN (linkBase.data 3) 0 (hbase 0 (by decide)) (hbase 1 (by decide))
      (hbase 2 (by decide)) (hbase 3 (by decide))]
    decide
  have hrl0 : entRecLen blkN 0 = 264 := by
    rw [entRecLen_congr blkN (linkBase.data 3) 0 (hbase 4 (by decide)) (hbase 5 (by decide))]
    decide
  have hdot0 : entIsDot blkN 0 = true := by
    rw [entIsDot_congr blkN (linkBase.data 3) 0 (hbase 6 (by decide)) (hbase 8 (by decide))
      (hbase 9 (by decide))]
    decide
  have hio1 : entInode blkN 264 = 1 := by
    rw [entInode_congr blkN (linkBase.data 3) 264 (hbase 264 (by decide))
      (hbase 265 (by decide)) (hbase 266 (by decide)) (hbase 267 (by decide))]
    decide
  have hrl1 : entRecLen blkN 264 = 264 := by
    rw [entRecLen_congr blkN (linkBase.data 3) 264 (hbase 268 (by decide))
      (hbase 269 (by decide))]
    decide
  have hdot1 : entIsDot blkN 264 = true := by
    rw [entIsDot_congr blkN (linkBase.data 3) 264 (hbase 270 (by decide))
      (hbase 272 (by decide)) (hbase 273 (by decide))]
    decide
  have hio2 : entInode blkN 528 = 2 := by
    rw [entInode_congr blkN (linkBase.data 3) 528 (hbase 528 (by decide))
      (hbase 529 (by decide)) (hbase 530 (by decide)) (hbase 531 (by decide))]
    decide
  have hrl2 : entRecLen blkN 528 = 264 := by
    rw [entRecLen_congr blkN (linkBase.data 3) 528 (hbase 532 (by decide))
      (hbase 533 (by decide))]
    decide
  have hdot2 : entIsDot blkN 528 = false := by
    rw [entIsDot_congr blkN (linkBase.data 3) 528 (hbase 534 (by decide))
      (hbase 536 (by decide)) (hbase 537 (by decide))]
    decide
  have hio3 : entInode blkN 792 = 2 := by
    rw [hblkN, entInode_writeEntry]
    decide
  have hrl3 : entRecLen blkN 792 = 264 := by
    rw [hblkN, entRecLen_writeEntry]
    decide
  have hdot3 : entIsDot blkN 792 = false := by
    apply entIsDot_false_of blkN 792 name _ _ hlen hd1 hd2
    · rw [hblkN, entNameLen_writeEntry]
    · intro t ht
      rw [hblkN]
      exact nameByte_writeEntry (linkBase.data 3) 792 2 dirEntrySize name.length 1 name t
        (by omega) hz (by omega)
  have hrl4 : entRecLen blkN 1056 = 0 := by
    rw [entRecLen_congr blkN (linkBase.data 3) 1056 (hge 1060 (by decide))
      (hge 1061 (by decide))]
    decide
  have hcount : countRefsBlock blkN 2 false 0 blockSize = 2 := by
    rw [countRefsDot blkN 2 0 blockSize 4095 264 rfl (by decide)
      (by rw [hrl0]; decide) (by rw [hio0]; decide) hdot0 (by rw [hrl0])]
    rw [countRefsDot blkN 2 264 4095 4094 528 rfl (by decide)
      (by rw [hrl1]; decide) (by rw [hio1]; decide) hdot1 (by rw [hrl1])]
    rw [countRefsHit blkN 2 528 4094 4093 792 rfl (by decide)
      (by rw [hrl2]; decide) hdot2 hio2 (by decide) (by rw [hrl2])]
    rw [countRefsHit blkN 2 792 4093 4092 1056 rfl (by decide)
      (by rw [hrl3]; decide) hdot3 hio3 (by decide) (by rw [hrl3])]
    rw [countRefsEnd blkN 2 false 1056 4092 4091 rfl hrl4]
  have hdrc : dirRefCount (S2f name) rootIno64 2 false = 2 := by
    unfold dirRefCount
    rw [show directSeq rootIno64 = [3] from rfl]
    simp only [List.foldl_cons, List.foldl_nil]
    simp only [show read_block (S2f name) 3 = some blkN from rfl]
    rw [hcount]
  unfold countTree
  rw [show (S2f name).sb.inodes_count = 16 from rfl]
  rw [show List.range' 1 16 =
    [1, 2, 3, 4, 5, 6, 7, 8, 9, 10, 11, 12, 13, 14, 15, 16] from rfl]
  simp only [List.foldl_cons, List.foldl_nil]
  rw [if_neg (by rw [show (S2f name).inodes 16 = zeroInode from rfl]; decide)]
  rw [if_neg (by rw [show (S2f name).inodes 15 = zeroInode from rfl]; decide)]
  rw [if_neg (by rw [show (S2f name).inodes 14 = zeroInode from rfl]; decide)]
  rw [if_neg (by rw [show (S2f name).inodes 13 = zeroInode from rfl]; decide)]
  rw [if_neg (by rw [show (S2f name).inodes 12 = zeroInode from rfl]; decide)]
  rw [if_neg (by rw [show (S2f name).inodes 11 = zeroInode from rfl]; decide)]
  rw [if_neg (by rw [show (S2f name).inodes 10 = zeroInode from rfl]; decide)]
  rw [if_neg (by rw [show (S2f name).inodes 9 = zeroInode from rfl]; decide)]
  rw [if_neg (by rw [show (S2f name).inodes 8 = zeroInode from rfl]; decide)]
  rw [if_neg (by rw [show (S2f name).inodes 7 = zeroInode from rfl]; decide)]
  rw [if_neg (by rw [show (S2f name).inodes 6 = zeroInode from rfl]; decide)]
  rw [if_neg (by rw [show (S2f name).inodes 5 = zeroInode from rfl]; decide)]
  rw [if_neg (by rw [show (S2f name).inodes 4 = zeroInode from rfl]; decide)]
  rw [if_neg (by rw [show (S2f name).inodes 3 = zeroInode from rfl]; decide)]
  rw [if_neg (by
    rw [show (S2f name).inodes 2 = ⟨1, 0, 2, List.replicate 13 0⟩ from rfl]
    decide)]
  rw [if_pos (by rw [show (S2f name).inodes 1 = rootIno64 from rfl]; decide)]
  rw [show (S2f name).inodes 1 = rootIno64 from rfl]
  rw [hdrc]

end VFS

namespace VFS

set_option maxRecDepth 1000000
set_option maxHeartbeats 4000000

/-- C2.  The link-count/entry-count harmony of create_link in its
ordinary success case, on the fresh 64-block image holding the regular
file "/f" (inode 2, links_count 1, exactly one referencing entry): for
every valid fresh link name, create_link("/f", "/" ++ name) succeeds,
the target's links_count becomes 2, and the number of non-dot directory
entries referencing inode 2 anywhere in the tree becomes 2 as well — the
increment happens together with the insertion of exactly one new entry,
keeping the spec-section-3 reverse-count equality for the target. -/
theorem create_link_increments_links_with_entry
    (name : List Nat) (hne : name ≠ []) (hz : 0 ∉ name) (h47 : 47 ∉ name)
    (hlen : name.length ≤ 255) (hd1 : name ≠ [46]) (hd2 : name ≠ [46, 46]) :
    (create_link linkBase [47, 102] (47 :: name)).2 = true ∧
    ((create_link linkBase [47, 102] (47 :: name)).1.inodes 2).links_count = 2 ∧
    (linkBase.inodes 2).links_count = 1 ∧
    countTree (create_link linkBase [47, 102] (47 :: name)).1 2 false = 2 ∧
    countTree linkBase 2 false = 1 := by
  have hcl := create_link_linkBase name hne h47
  refine ⟨by rw [hcl], ?_, by decide, ?_, by decide⟩
  · rw [hcl]
    rfl
  · rw [hcl]
    exact countTree_S2f name hz hlen hd1 hd2

/-- C2, witness: linking "/f" to "/g" takes inode 2 from links_count 1
with one referencing entry to links_count 2 with two referencing
entries. -/
theorem create_link_increments_links_with_entry_witness :
    (create_link linkBase [47, 102] [47, 103]).2 = true ∧
    ((create_link linkBase [47, 102] [47, 103]).1.inodes 2).links_count = 2 ∧
    (linkBase.inodes 2).links_count = 1 ∧
    countTree (create_link linkBase [47, 102] [47, 103]).1 2 false = 2 ∧
    countTree linkBase 2 false = 1 :=
  create_link_increments_links_with_entry [103] (by decide) (by decide) (by decide)
    (by decide) (by decide) (by decide)

end VFS
